import Mathlib

/-!
# Verification of the CMM parser and tree-walking interpreter

This file is a shallow embedding of the CMM language front-end and
evaluator (files `src/CMMParser.cpp`, `src/CMMInterpreter.cpp`, header
`include/CMMParser.h`) into Lean 4, together with theorems settling the
specification claims about it.

Conventions of the embedding:
* C++ `std::map<std::string, T>` tables are association lists with
  `std::map::emplace` semantics (insert only when the key is absent).
* The token stream is a `List Token`; `Lex()` drops the head, `seekLoc`
  plus re-lex is modelled by restoring a saved token list.
* Parse errors (`Error(...)` followed by `return true`) are
  `Except.error`; warnings are accumulated in the parser state.
* Runtime errors (`RuntimeError`, which calls `std::exit`) are
  `Except.error` of the interpreter monad.
* Unbounded recursion (statements/expressions/functions) is handled by
  an explicit fuel parameter; running out of fuel is the distinguished
  error `outOfFuel`, which is never identified with a real parse or
  runtime error.
* C++ `double` is modelled by `Rat`; the only double operations the
  verified claims exercise are the int-to-double widening conversion
  and type tags.
* Declarations whose originals are in repository headers that are not
  under `src/` (the up-to-date AST header, `CMMInterpreter.h`,
  `NativeFunctions.h`) carry a doc comment starting with
  `Modelled from the spec:`.
-/

namespace CMM

/-! ## Basic types and runtime values (`cvm` namespace of the source) -/

/-- `cvm::BasicType`. The header under `src/include` is a stale copy
without `VoidType`, but `CMMParser.cpp` uses `cvm::VoidType`, so the
real enum has it. -/
inductive BasicType where
  | boolType
  | intType
  | doubleType
  | stringType
  | voidType
  deriving DecidableEq, Repr

/-- Modelled from the spec: `cvm::BasicValue` (its header is not under
`src/`): "a tagged union over \x7bbool, int, double, string\x7d, carrying
exactly one active payload matching its type tag"; a default-constructed
value (used for the result of statements that do not return) carries the
void tag and no payload. C++ `double` is modelled as `Rat`. -/
inductive BasicValue where
  | boolV (b : Bool)
  | intV (n : Int)
  | doubleV (d : Rat)
  | strV (s : String)
  | voidV
  deriving DecidableEq, Repr

namespace BasicValue

/-- The type tag of a runtime value. -/
def type : BasicValue → BasicType
  | .boolV _ => .boolType
  | .intV _ => .intType
  | .doubleV _ => .doubleType
  | .strV _ => .stringType
  | .voidV => .voidType

def isInt : BasicValue → Bool
  | .intV _ => true
  | _ => false

def isDouble : BasicValue → Bool
  | .doubleV _ => true
  | _ => false

def isString : BasicValue → Bool
  | .strV _ => true
  | _ => false

/-- Modelled from the spec: `BasicValue::toString` stringification used
by string concatenation ("numeric operand stringified"). -/
def toStr : BasicValue → String
  | .boolV b => if b then "true" else "false"
  | .intV n => toString n
  | .doubleV d => toString d
  | .strV s => s
  | .voidV => ""

/-- Modelled from the spec: "An uninitialized declaration binds a
zero/default value of its declared type." -/
def defaultOf : BasicType → BasicValue
  | .boolType => .boolV false
  | .intType => .intV 0
  | .doubleType => .doubleV 0
  | .stringType => .strV ""
  | .voidType => .voidV

end BasicValue

/-! ## Tokens

The lexer is an external collaborator; the parser consumes a token
stream with one-token lookahead.  Tokens carry their payloads. -/

/-- Token kinds of `CMMLexer.h`, with payloads attached. -/
inductive Token where
  | kwBool | kwInt | kwDouble | kwVoid | kwString
  | kwIf | kwElse | kwWhile | kwFor | kwReturn | kwBreak | kwContinue
  | kwInfix
  | identifier (s : String)
  | integer (n : Int)
  | doubleLit (d : Rat)
  | boolean (b : Bool)
  | stringLit (s : String)
  | infixOp (s : String)
  | lParen | rParen | lCurly | rCurly | lBrac | rBrac
  | comma | semicolon
  | equal | equalEqual | exclaimEqual
  | less | lessEqual | greater | greaterEqual
  | lessLess | greaterGreater
  | plus | minus | star | slash | percent
  | amp | pipe | caret | tilde | exclaim
  | ampAmp | pipePipe
  | eof | error
  deriving DecidableEq, Repr

namespace Token

/-- `Lexer.getStrVal()`: string payload of the current token (the
parser calls it speculatively in `parseBinOpRHS`, so it is total). -/
def strVal : Token → String
  | .identifier s => s
  | .stringLit s => s
  | .infixOp s => s
  | _ => ""

/-- `Lexer.getIntVal()`. -/
def intVal : Token → Int
  | .integer n => n
  | _ => 0

end Token

/-! ## AST nodes

Expression and statement variants as produced by `CMMParser.cpp`.
C++ owns nodes through `unique_ptr<StatementAST>`, which may be null
(`parseEmptyStatement` sets it to `nullptr`), so every statement slot
is an `Option Stmt`. -/

/-- `BinaryOperatorAST::OperatorKind`.  The stale header lacks `Index`
and `NotEqual`, but `CMMParser.cpp`/`CMMInterpreter.cpp` use
`BinaryOperatorAST::Index`, and the token `!=` must map somewhere, so
both are included (Modelled from the spec for `notEqual`). -/
inductive OperatorKind where
  | add | minus | multiply | division | modulo
  | logicalAnd | logicalOr
  | less | lessEqual | equalCmp | notEqual | greater | greaterEqual
  | bitwiseAnd | bitwiseOr | bitwiseXor | leftShift | rightShift
  | assign | index
  deriving DecidableEq, Repr

/-- `UnaryOperatorAST::OperatorKind`. -/
inductive UnaryOpKind where
  | plus | minus | logicalNot | bitwiseNot
  deriving DecidableEq, Repr

/-- Expression AST.  `infixOpExpr` is the "user-defined infix-operator
application" variant (`InfixOpExprAST`), a node kind of its own,
distinct from the eight kinds `CMMInterpreter::evaluateExpression`
dispatches on (Modelled from the spec for its kind tag; the up-to-date
AST header is not under `src/`). -/
inductive Expr where
  | intE (n : Int)
  | doubleE (d : Rat)
  | boolE (b : Bool)
  | stringE (s : String)
  | identifier (name : String)
  | functionCall (callee : String) (args : List Expr) (dynamic : Bool)
  | binaryOp (k : OperatorKind) (lhs rhs : Expr)
  | unaryOp (k : UnaryOpKind) (operand : Expr)
  | infixOpExpr (symbol : String) (lhs rhs : Expr)

/-- Whether an expression node is a plain identifier
(`ExpressionAST` kind check). -/
def Expr.isIdentifierE : Expr → Bool
  | .identifier _ => true
  | _ => false

/-- A single declaration inside a `DeclarationListAST`; `type` is the
list's type specifier copied to each declaration. -/
structure Decl where
  name : String
  type : BasicType
  init : Option Expr
  countExprs : List Expr

/-- `DeclarationAST::isArray()`. -/
def Decl.isArray (d : Decl) : Bool := !d.countExprs.isEmpty

/-- Statement AST.  Substatement slots are `Option Stmt` because the
C++ parser stores null pointers for empty statements. -/
inductive Stmt where
  | exprStmt (e : Expr)
  | block (stmts : List (Option Stmt))
  | ifStmt (cond : Expr) (thenS : Option Stmt) (elseS : Option Stmt)
  | whileStmt (cond : Expr) (body : Option Stmt)
  | forStmt (init cond post : Option Expr) (body : Option Stmt)
  | returnStmt (retVal : Option Expr)
  | breakStmt
  | continueStmt
  | declList (type : BasicType) (decls : List Decl)

/-- `FunctionDefinitionAST` parameter: name and declared type. -/
structure Parameter where
  name : String
  type : BasicType
  deriving DecidableEq, Repr

/-- `FunctionDefinitionAST`: name, return type, parameters, owned body
statement (possibly null). -/
structure FunctionDefinitionAST where
  name : String
  retType : BasicType
  params : List Parameter
  statement : Option Stmt

/-- `InfixOpDefinitionAST`: operator symbol, the two bound operand
names, owned body statement (possibly null). -/
structure InfixOpDefinitionAST where
  symbol : String
  lhsName : String
  rhsName : String
  statement : Option Stmt

/-- Modelled from the spec: `InfixOpDefinitionAST::DefaultPrecedence`
("user-declared default falls back to a constant default precedence");
the constant's value is not visible under `src/`; the grammar comment
in `CMMParser.cpp` uses 12 as its example precedence. -/
def InfixOpDefinitionAST.defaultPrecedence : Int := 12

/-! ## `std::map` emplace semantics -/

/-- The `static_cast<int8_t>` applied to a user-declared precedence
before it enters the precedence table. -/
def toInt8 (n : Int) : Int := (n + 128) % 256 - 128

/-- `std::map::emplace`: insert only when the key is absent; the `Bool`
is the `.second` of the returned pair (true = actually inserted). -/
def emplace {α : Type} (k : String) (v : α) (m : List (String × α)) :
    List (String × α) × Bool :=
  if (m.lookup k).isSome then (m, false) else ((k, v) :: m, true)

/-! ## Parser state and errors (`CMMParser` members) -/

/-- Parse failure: the C++ `Error(...)` path (which aborts the whole
unit), or fuel exhaustion of the embedding. -/
inductive PErr where
  | outOfFuel
  | parseError (msg : String)
  deriving DecidableEq, Repr

/-- The mutable state of `CMMParser`: the token stream (standing in for
the lexer), the operator-precedence table for user infix symbols
(`BinOpPrecedence`, keyed by symbol string; builtin operators live in
the `getBinOpPrecedence` switch), the infix-operator definition table
(`InfixOpDefinition`), the function definition table
(`FunctionDefinition`), the top-level statement list (`TopLevelBlock`),
and the warnings emitted so far (most recent first). -/
structure PState where
  toks : List Token
  binOpPrecedence : List (String × Int) := []
  userInfixDefs : List (String × InfixOpDefinitionAST) := []
  functionDefs : List (String × FunctionDefinitionAST) := []
  topLevelStmts : List (Option Stmt) := []
  warnings : List String := []

namespace PState

/-- The current token (one-token lookahead); an exhausted stream reads
as end-of-file. -/
def curTok (s : PState) : Token := s.toks.headD .eof

/-- `Lex()`: advance past the current token. -/
def lex (s : PState) : PState := { s with toks := s.toks.tail }

/-- `Warning(msg)`: record a warning and continue. -/
def warn (s : PState) (msg : String) : PState :=
  { s with warnings := msg :: s.warnings }

/-- Initial parser state on a token stream. -/
def init (toks : List Token) : PState := { toks := toks }

end PState

/-- `CMMParser::getBinOpPrecedence`: builtin precedences 1-11, user
infix symbols through the mutable table, -1 for "not a binary
operator". -/
def getBinOpPrecedence (s : PState) : Int :=
  match s.curTok with
  | .equal => 1
  | .pipePipe => 2
  | .ampAmp => 3
  | .pipe => 4
  | .caret => 5
  | .amp => 6
  | .equalEqual | .exclaimEqual => 7
  | .less | .lessEqual | .greater | .greaterEqual => 8
  | .lessLess | .greaterGreater => 9
  | .plus | .minus => 10
  | .star | .slash | .percent => 11
  | .infixOp sym =>
      match s.binOpPrecedence.lookup sym with
      | some p => p
      | none => -1
  | _ => -1

/-- The binary `OperatorKind` a binary-operator token maps to. -/
def tokenToBinOp : Token → Option OperatorKind
  | .equal => some .assign
  | .pipePipe => some .logicalOr
  | .ampAmp => some .logicalAnd
  | .pipe => some .bitwiseOr
  | .caret => some .bitwiseXor
  | .amp => some .bitwiseAnd
  | .equalEqual => some .equalCmp
  | .exclaimEqual => some .notEqual
  | .less => some .less
  | .lessEqual => some .lessEqual
  | .greater => some .greater
  | .greaterEqual => some .greaterEqual
  | .lessLess => some .leftShift
  | .greaterGreater => some .rightShift
  | .plus => some .add
  | .minus => some .minus
  | .star => some .multiply
  | .slash => some .division
  | .percent => some .modulo
  | _ => none

namespace BinaryOperatorAST

/-- Modelled from the spec: `BinaryOperatorAST::create` (implementation
not under `src/`): builds the binary-operator node for a token; for `=`
it "requires its left side be a plain identifier node (reinterpreted as
an lvalue name at this point)" and rejects any other left side at parse
time.  No constant folding: the spec states `1 + 2 * 3` parses to
`Add(1, Mul(2,3))`. -/
def create (tk : Token) (lhs rhs : Expr) : Except PErr Expr :=
  match tokenToBinOp tk with
  | none => .error (.parseError "not a binary operator token")
  | some k =>
      if k = .assign then
        if lhs.isIdentifierE then .ok (.binaryOp .assign lhs rhs)
        else .error (.parseError "left hand side of assignment must be an identifier")
      else .ok (.binaryOp k lhs rhs)

/-- Modelled from the spec: `BinaryOperatorAST::tryFoldBinOp`
(implementation not under `src/`) behaves as `create`; the spec's §8
parse trees show no constant folding happens. -/
def tryFoldBinOp (tk : Token) (lhs rhs : Expr) : Except PErr Expr :=
  create tk lhs rhs

end BinaryOperatorAST

/-- Modelled from the spec: `UnaryOperatorAST::tryFoldUnaryOp`
(implementation not under `src/`) builds the unary node; per the spec
unary operators survive to runtime (where they are rejected), so no
folding. -/
def UnaryOperatorAST.tryFoldUnaryOp (k : UnaryOpKind) (e : Expr) : Expr :=
  .unaryOp k e

/-! ## Non-recursive parse functions -/

/-- `CMMParser::parseTypeSpecifier`. -/
def parseTypeSpecifier (s : PState) : Except PErr (BasicType × PState) :=
  match s.curTok with
  | .kwBool => .ok (.boolType, s.lex)
  | .kwInt => .ok (.intType, s.lex)
  | .kwDouble => .ok (.doubleType, s.lex)
  | .kwVoid => .ok (.voidType, s.lex)
  | .kwString => .ok (.stringType, s.lex)
  | _ => .error (.parseError "unknown type specifier")

/-- `CMMParser::parseConstantExpression`. -/
def parseConstantExpression (s : PState) : Except PErr (Expr × PState) :=
  match s.curTok with
  | .integer n => .ok (.intE n, s.lex)
  | .doubleLit d => .ok (.doubleE d, s.lex)
  | .boolean b => .ok (.boolE b, s.lex)
  | .stringLit str => .ok (.stringE str, s.lex)
  | _ => .error (.parseError "unknown token in literal constant expression")

/-- `CMMParser::parseEmptyStatement`: warn, yield a null statement
pointer (`Res = nullptr`), eat the semicolon, succeed. -/
def parseEmptyStatement (s : PState) : Except PErr (Option Stmt × PState) :=
  .ok ((none : Option Stmt), (s.warn "empty statement").lex)

/-- `CMMParser::parseBreakStatement` (the leading `break` keyword is
asserted by the caller and eaten here). -/
def parseBreakStatement (s : PState) : Except PErr (Option Stmt × PState) :=
  let s := s.lex
  if s.curTok = .semicolon then .ok (some .breakStmt, s.lex)
  else .error (.parseError "unexpected token after break")

/-- `CMMParser::parseContinueStatement`. -/
def parseContinueStatement (s : PState) : Except PErr (Option Stmt × PState) :=
  let s := s.lex
  if s.curTok = .semicolon then .ok (some .continueStmt, s.lex)
  else .error (.parseError "unexpected token after continue")

/-- `CMMParser::parseParameterList` body loop.  Its C++ caller ignores
the failure flag (`parseParameterList(ParameterList);`), so a failed
type specifier stops the loop with the parameters collected so far and
the stream untouched at the offending token (the diagnostic goes to the
sink but does not abort here); a missing identifier after a type only
warns and records an empty parameter name. -/
def parseParamItems : Nat → List Parameter → PState → List Parameter × PState
  | 0, acc, s => (acc, s)
  | fuel + 1, acc, s =>
    match parseTypeSpecifier s with
    | .error _ => (acc, s)
    | .ok (ty, s) =>
      let (name, s) :=
        match s.curTok with
        | .identifier n => (n, s.lex)
        | _ => ("", s.warn "missing identifier after type")
      let acc := acc ++ [⟨name, ty⟩]
      if s.curTok = .comma then parseParamItems fuel acc s.lex else (acc, s)

/-- `CMMParser::parseParameterList`: `void` alone means an empty list,
otherwise the comma-separated items. -/
def parseParameterList (fuel : Nat) (s : PState) : List Parameter × PState :=
  if s.curTok = .kwVoid then ([], s.lex)
  else parseParamItems fuel [] s

/-! ## The recursive-descent parser

All functions take a fuel parameter and consume one unit on every call
into the mutual block; `outOfFuel` only signals that the fuel bound was
too small, never a parse failure of the source program. -/

mutual

/-- `CMMParser::parseExpression`:
`expression ::= primaryExpr BinOpRHS*`. -/
def parseExpression : Nat → PState → Except PErr (Expr × PState)
  | 0, _ => .error .outOfFuel
  | fuel + 1, s => do
      let (lhs, s) ← parsePrimaryExpression fuel s
      parseBinOpRHS fuel 1 lhs s

/-- `CMMParser::parsePrimaryExpression`. -/
def parsePrimaryExpression : Nat → PState → Except PErr (Expr × PState)
  | 0, _ => .error .outOfFuel
  | fuel + 1, s =>
    match s.curTok with
    | .lParen => parseParenExpression fuel s
    | .identifier _ => do
        let (e, s) ← parseIdentifierExpression fuel s
        parseIndexSuffixes fuel e s
    | .integer _ | .doubleLit _ | .boolean _ | .stringLit _ =>
        parseConstantExpression s
    | .plus => do
        let (operand, s) ← parsePrimaryExpression fuel s.lex
        .ok (UnaryOperatorAST.tryFoldUnaryOp .plus operand, s)
    | .minus => do
        let (operand, s) ← parsePrimaryExpression fuel s.lex
        .ok (UnaryOperatorAST.tryFoldUnaryOp .minus operand, s)
    | .tilde => do
        let (operand, s) ← parsePrimaryExpression fuel s.lex
        .ok (UnaryOperatorAST.tryFoldUnaryOp .bitwiseNot operand, s)
    | .exclaim => do
        let (operand, s) ← parsePrimaryExpression fuel s.lex
        .ok (UnaryOperatorAST.tryFoldUnaryOp .logicalNot operand, s)
    | _ => .error (.parseError "unexpected token in expression")

/-- The `while (Lexer.is(Token::LBrac))` suffix loop of
`parsePrimaryExpression`, folding `a[i][j]` into `Index` binary
nodes. -/
def parseIndexSuffixes : Nat → Expr → PState → Except PErr (Expr × PState)
  | 0, _, _ => .error .outOfFuel
  | fuel + 1, res, s =>
    if s.curTok = .lBrac then do
      let (idx, s) ← parseExpression fuel s.lex
      if s.curTok = .rBrac then
        parseIndexSuffixes fuel (.binaryOp .index res idx) s.lex
      else .error (.parseError "RBrac expected in index expression")
    else .ok (res, s)

/-- `CMMParser::parseParenExpression`. -/
def parseParenExpression : Nat → PState → Except PErr (Expr × PState)
  | 0, _ => .error .outOfFuel
  | fuel + 1, s => do
      let (e, s) ← parseExpression fuel s.lex
      if s.curTok = .rParen then .ok (e, s.lex)
      else .error (.parseError "expected rparen in parentheses expression")

/-- `CMMParser::parseIdentifierExpression`: an identifier, optionally a
trailing `!` (ignored with a warning unless a call follows), optionally
a call argument list. -/
def parseIdentifierExpression : Nat → PState → Except PErr (Expr × PState)
  | 0, _ => .error .outOfFuel
  | fuel + 1, s =>
    match s.curTok with
    | .identifier name =>
      let s := s.lex
      let (dyn, s) := if s.curTok = .exclaim then (true, s.lex) else (false, s)
      if s.curTok = .lParen then do
        let (args, s) ← parseOptionalArgList fuel s.lex
        if s.curTok = .rParen then
          .ok (.functionCall name args dyn, s.lex)
        else .error (.parseError "expect rparen in function call")
      else
        let s := if dyn then s.warn "trailing exclaim is ignored in identifier" else s
        .ok (.identifier name, s)
    | _ => .error (.parseError "identifier expected in identifier expression")

/-- `CMMParser::parseOptionalArgList`. -/
def parseOptionalArgList : Nat → PState → Except PErr (List Expr × PState)
  | 0, _ => .error .outOfFuel
  | fuel + 1, s =>
    if s.curTok = .rParen then .ok ([], s)
    else parseArgumentList fuel [] s

/-- `CMMParser::parseArgumentList` comma loop. -/
def parseArgumentList : Nat → List Expr → PState → Except PErr (List Expr × PState)
  | 0, _, _ => .error .outOfFuel
  | fuel + 1, acc, s => do
      let (e, s) ← parseExpression fuel s
      let acc := acc ++ [e]
      if s.curTok = .comma then parseArgumentList fuel acc s.lex
      else .ok (acc, s)

/-- `CMMParser::parseBinOpRHS`: the assignment pre-check (`=` is
handled right-associatively before the precedence loop), then the
precedence-climbing loop. -/
def parseBinOpRHS : Nat → Int → Expr → PState → Except PErr (Expr × PState)
  | 0, _, _, _ => .error .outOfFuel
  | fuel + 1, exprPrec, res, s =>
    if s.curTok = .equal then do
      let (rhs, s) ← parseExpression fuel s.lex
      match BinaryOperatorAST.create .equal res rhs with
      | .ok e => .ok (e, s)
      | .error e => .error e
    else
      parseBinOpRHSLoop fuel exprPrec res s

/-- The `for (;;)` loop of `CMMParser::parseBinOpRHS`: read the current
operator's precedence; stop below `exprPrec`; otherwise consume the
operator and a primary, recurse at one-higher precedence while a
tighter operator follows, and fold (`InfixOpExprAST` for user symbols,
`tryFoldBinOp` for builtin tokens). -/
def parseBinOpRHSLoop : Nat → Int → Expr → PState → Except PErr (Expr × PState)
  | 0, _, _, _ => .error .outOfFuel
  | fuel + 1, exprPrec, res, s =>
    let tokKind := s.curTok
    let tokPrec := getBinOpPrecedence s
    if tokPrec < exprPrec then .ok (res, s)
    else do
      let symbol := tokKind.strVal
      let s := s.lex
      let (rhs, s) ← parsePrimaryExpression fuel s
      let nextPrec := getBinOpPrecedence s
      let (rhs, s) ←
        if tokPrec < nextPrec then parseBinOpRHS fuel (tokPrec + 1) rhs s
        else .ok (rhs, s)
      match tokKind with
      | .infixOp _ =>
          parseBinOpRHSLoop fuel exprPrec (.infixOpExpr symbol res rhs) s
      | _ =>
          match BinaryOperatorAST.tryFoldBinOp tokKind res rhs with
          | .ok res2 => parseBinOpRHSLoop fuel exprPrec res2 s
          | .error e => .error e

/-- `CMMParser::parseStatement` dispatch. -/
def parseStatement : Nat → PState → Except PErr (Option Stmt × PState)
  | 0, _ => .error .outOfFuel
  | fuel + 1, s =>
    match s.curTok with
    | .lCurly => parseBlock fuel s
    | .kwIf => parseIfStatement fuel s
    | .kwWhile => parseWhileStatement fuel s
    | .kwFor => parseForStatement fuel s
    | .kwReturn => parseReturnStatement fuel s
    | .kwBreak => parseBreakStatement s
    | .kwContinue => parseContinueStatement s
    | .semicolon => parseEmptyStatement s
    | .kwBool | .kwInt | .kwDouble | .kwString => parseDeclarationStatement fuel s
    | .kwVoid => .error (.parseError "void only appears before function definition")
    | .lParen | .identifier _ | .doubleLit _ | .stringLit _ | .boolean _
    | .integer _ | .plus | .minus | .tilde | .exclaim =>
        parseExprStatement fuel s
    | _ => .error (.parseError "unexpected token in statement")

/-- `CMMParser::parseBlock` (the leading `{` is asserted by the caller
and eaten here). -/
def parseBlock : Nat → PState → Except PErr (Option Stmt × PState)
  | 0, _ => .error .outOfFuel
  | fuel + 1, s => do
      let (stmts, s) ← parseBlockItems fuel [] s.lex
      .ok (some (.block stmts), s)

/-- The `while (Lexer.isNot(Token::RCurly))` loop of `parseBlock`;
the closing `}` is eaten on exit. -/
def parseBlockItems : Nat → List (Option Stmt) → PState →
    Except PErr (List (Option Stmt) × PState)
  | 0, _, _ => .error .outOfFuel
  | fuel + 1, acc, s =>
    if s.curTok = .rCurly then .ok (acc, s.lex)
    else do
      let (st, s) ← parseStatement fuel s
      parseBlockItems fuel (acc ++ [st]) s

/-- `CMMParser::parseIfStatement` (`IfStatementAST::create` modelled
from the spec as plain node construction). -/
def parseIfStatement : Nat → PState → Except PErr (Option Stmt × PState)
  | 0, _ => .error .outOfFuel
  | fuel + 1, s =>
    let s := s.lex
    if s.curTok = .lParen then do
      let (cond, s) ← parseExpression fuel s.lex
      if s.curTok = .rParen then do
        let (thenS, s) ← parseStatement fuel s.lex
        if s.curTok = .kwElse then do
          let (elseS, s) ← parseStatement fuel s.lex
          .ok (some (.ifStmt cond thenS elseS), s)
        else .ok (some (.ifStmt cond thenS none), s)
      else .error (.parseError "right parenthesis expected")
    else .error (.parseError "left parenthesis expected")

/-- `CMMParser::parseWhileStatement`. -/
def parseWhileStatement : Nat → PState → Except PErr (Option Stmt × PState)
  | 0, _ => .error .outOfFuel
  | fuel + 1, s =>
    let s := s.lex
    if s.curTok = .lParen then do
      let (cond, s) ← parseExpression fuel s.lex
      if s.curTok = .rParen then do
        let (body, s) ← parseStatement fuel s.lex
        .ok (some (.whileStmt cond body), s)
      else .error (.parseError "right parenthesis expected in while loop")
    else .error (.parseError "left parenthesis expected in while loop")

/-- The `if (Lexer.isNot(stop) && parseExpression(E)) return true;`
idiom of `parseForStatement`: an optional expression terminated by the
given stop token (absent when the stop token is already current). -/
def parseForOptExpr : Nat → Token → PState → Except PErr (Option Expr × PState)
  | 0, _, _ => .error .outOfFuel
  | fuel + 1, stopTok, s =>
    if s.curTok ≠ stopTok then do
      let (e, s) ← parseExpression fuel s
      pure (some e, s)
    else .ok ((none : Option Expr), s)

/-- `CMMParser::parseForStatement`: three optional expressions between
the parentheses, then the body statement. -/
def parseForStatement : Nat → PState → Except PErr (Option Stmt × PState)
  | 0, _ => .error .outOfFuel
  | fuel + 1, s =>
    let s := s.lex
    if s.curTok = .lParen then do
      let (initE, s) ← parseForOptExpr fuel .semicolon s.lex
      if s.curTok = .semicolon then do
        let (condE, s) ← parseForOptExpr fuel .semicolon s.lex
        if s.curTok = .semicolon then do
          let (postE, s) ← parseForOptExpr fuel .rParen s.lex
          if s.curTok = .rParen then do
            let (body, s) ← parseStatement fuel s.lex
            .ok (some (.forStmt initE condE postE body), s)
          else .error (.parseError "missing semicolon for post expression in for loop")
        else .error (.parseError "missing semicolon for conditional expression in for loop")
      else .error (.parseError "missing semicolon for initial expression in for loop")
    else .error (.parseError "left parenthesis expected in for loop")

/-- `CMMParser::parseReturnStatement`. -/
def parseReturnStatement : Nat → PState → Except PErr (Option Stmt × PState)
  | 0, _ => .error .outOfFuel
  | fuel + 1, s =>
    let s := s.lex
    if s.curTok ≠ .semicolon then do
      let (e, s) ← parseExpression fuel s
      if s.curTok = .semicolon then .ok (some (.returnStmt (some e)), s.lex)
      else .error (.parseError "unexpected token after return value")
    else .ok (some (.returnStmt none), s.lex)

/-- `CMMParser::parseExprStatement`. -/
def parseExprStatement : Nat → PState → Except PErr (Option Stmt × PState)
  | 0, _ => .error .outOfFuel
  | fuel + 1, s => do
      let (e, s) ← parseExpression fuel s
      if s.curTok = .semicolon then .ok (some (.exprStmt e), s.lex)
      else .error (.parseError "missing semicolon in statement")

/-- `CMMParser::parseDeclarationStatement` (type-leading overload). -/
def parseDeclarationStatement : Nat → PState → Except PErr (Option Stmt × PState)
  | 0, _ => .error .outOfFuel
  | fuel + 1, s => do
      let (ty, s) ← parseTypeSpecifier s
      parseDeclarationStatementTyped fuel ty s

/-- `CMMParser::parseDeclarationStatement` (auxiliary overload, after
the type specifier): the declarator loop and the closing semicolon. -/
def parseDeclarationStatementTyped : Nat → BasicType → PState →
    Except PErr (Option Stmt × PState)
  | 0, _, _ => .error .outOfFuel
  | fuel + 1, ty, s => do
      let (decls, s) ← parseDeclarators fuel ty [] s
      if s.curTok = .semicolon then .ok (some (.declList ty decls), s.lex)
      else .error (.parseError "expected semicolon in the declaration")

/-- The `for (;;)` declarator loop of `parseDeclarationStatement`:
`identifier ("[" Expression "]")* ("=" Expression)?`, repeated over
commas. -/
def parseDeclarators : Nat → BasicType → List Decl → PState →
    Except PErr (List Decl × PState)
  | 0, _, _, _ => .error .outOfFuel
  | fuel + 1, ty, acc, s =>
    match s.curTok with
    | .identifier name => do
        let (counts, s) ← parseCountExprs fuel [] s.lex
        let (initE, s) ←
          if s.curTok = .equal then do
            let (e, s) ← parseExpression fuel s.lex
            pure (some e, s)
          else pure ((none : Option Expr), s)
        let acc := acc ++ [⟨name, ty, initE, counts⟩]
        if s.curTok = .comma then parseDeclarators fuel ty acc s.lex
        else .ok (acc, s)
    | _ => .error (.parseError "identifier expected")

/-- The `while (Lexer.is(Token::LBrac))` loop collecting array size
expressions in a declarator. -/
def parseCountExprs : Nat → List Expr → PState →
    Except PErr (List Expr × PState)
  | 0, _, _ => .error .outOfFuel
  | fuel + 1, acc, s =>
    if s.curTok = .lBrac then do
      let (e, s) ← parseExpression fuel s.lex
      if s.curTok = .rBrac then parseCountExprs fuel (acc ++ [e]) s.lex
      else .error (.parseError "RBrac expected in array declaration")
    else .ok (acc, s)

/-- `CMMParser::parseInfixOpDefinition`:
`Kw_infix [Integer] Id infixOp Id ["="] body`.  The symbol is emplaced
into the precedence table (a failed emplace, i.e. an already-registered
symbol, warns but keeps the old precedence) and the definition is
emplaced into the infix-definition table (a failed emplace silently
keeps the old definition). -/
def parseInfixOpDefinition : Nat → PState → Except PErr PState
  | 0, _ => .error .outOfFuel
  | fuel + 1, s =>
    let s := s.lex
    let (prec, s) :=
      match s.curTok with
      | .integer n => (n, s.lex)
      | _ => (InfixOpDefinitionAST.defaultPrecedence, s)
    match s.curTok with
    | .identifier lhsName =>
      let s := s.lex
      match s.curTok with
      | .infixOp symbol =>
        let s := s.lex
        match s.curTok with
        | .identifier rhsName =>
          let s := s.lex
          let bodyRes :=
            if s.curTok = .equal then parseExprStatement fuel s.lex
            else parseStatement fuel s
          match bodyRes with
          | .error e => .error e
          | .ok (stmt, s2) =>
            let (bp, inserted) := emplace symbol (toInt8 prec) s2.binOpPrecedence
            let s3 :=
              if inserted then { s2 with binOpPrecedence := bp }
              else
                { s2 with binOpPrecedence := bp }.warn
                  ("infix operator " ++ symbol ++ " overrides another")
            .ok { s3 with
                  userInfixDefs :=
                    (emplace symbol ⟨symbol, lhsName, rhsName, stmt⟩
                      s3.userInfixDefs).1 }
        | _ => .error (.parseError "right hand operand name for infix operator expected")
      | _ => .error (.parseError "symbol of infix operator expected")
    | _ => .error (.parseError "left hand operand name for infix operator expected")

/-- `CMMParser::parseFunctionDefinition` (keyword-leading overload,
used for `void`-returning functions). -/
def parseFunctionDefinition : Nat → PState → Except PErr PState
  | 0, _ => .error .outOfFuel
  | fuel + 1, s => do
      let (retTy, s) ← parseTypeSpecifier s
      match s.curTok with
      | .identifier name => parseFunctionDefinitionNamed fuel retTy name s.lex
      | _ => .error (.parseError "expect identifier in function definition")

/-- `CMMParser::parseFunctionDefinition` (auxiliary overload, after
type and name; the `(` is asserted by the caller — a missing one is
modelled as a parse failure).  The definition is emplaced into the
function table; a failed emplace (the name already defined) warns but
keeps the old definition. -/
def parseFunctionDefinitionNamed : Nat → BasicType → String → PState →
    Except PErr PState
  | 0, _, _, _ => .error .outOfFuel
  | fuel + 1, retTy, name, s =>
    if s.curTok = .lParen then
      let s := s.lex
      let (params, s) :=
        if s.curTok ≠ .rParen then parseParameterList (fuel + 1) s else ([], s)
      if s.curTok = .rParen then do
        let (body, s2) ← parseStatement fuel s.lex
        let (fd, inserted) :=
          emplace name ⟨name, retTy, params, body⟩ s2.functionDefs
        let s3 := { s2 with functionDefs := fd }
        .ok (if inserted then s3
             else s3.warn ("function " ++ name ++ " overrides another one"))
      else .error (.parseError "right parenthesis expected")
    else .error (.parseError "left parenthesis expected in function definition")

/-- `CMMParser::parseTopLevel`, including the function-vs-declaration
disambiguation: after `Type Identifier`, a `(` commits to a function
definition; anything else rewinds the token cursor to the identifier
(`seekLoc` + re-lex) and parses a declaration statement. -/
def parseTopLevel : Nat → PState → Except PErr PState
  | 0, _ => .error .outOfFuel
  | fuel + 1, s =>
    match s.curTok with
    | .kwInfix => parseInfixOpDefinition fuel s
    | .kwVoid => parseFunctionDefinition fuel s
    | .kwInt | .kwBool | .kwDouble | .kwString => do
        let (ty, s1) ← parseTypeSpecifier s
        let saved := s1.toks
        match s1.curTok with
        | .identifier name =>
          let s2 := s1.lex
          if s2.curTok = .lParen then
            parseFunctionDefinitionNamed fuel ty name s2
          else do
            let (st, s4) ← parseDeclarationStatementTyped fuel ty
              { s2 with toks := saved }
            .ok { s4 with topLevelStmts := s4.topLevelStmts ++ [st] }
        | _ => .error (.parseError "expect identifier after type")
    | _ => do
        let (st, s1) ← parseStatement fuel s
        .ok { s1 with topLevelStmts := s1.topLevelStmts ++ [st] }

end

/-- `CMMParser::parse`: the top-level driver loop, stopping at
end-of-file (or a lexer error token). -/
def parseProgram : Nat → PState → Except PErr PState
  | 0, _ => .error .outOfFuel
  | fuel + 1, s =>
    match s.curTok with
    | .eof | .error => .ok s
    | _ => do
        let s1 ← parseTopLevel fuel s
        parseProgram fuel s1

/-! ## Interpreter: environments, results, errors

`CMMInterpreter.h` is not under `src/`; the execution-result model is
modelled from the spec: "every statement execution yields a tagged
outcome — Normal (control falls through), Return(value), Break,
Continue".  `RuntimeError` calls `std::exit`, so a runtime error is
modelled as `Except.error` aborting the whole run. -/

/-- Modelled from the spec: the kinds of `ExecutionResult`. -/
inductive ExecKind where
  | normal
  | ret
  | brk
  | cont
  deriving DecidableEq, Repr

/-- Modelled from the spec: `CMMInterpreter::ExecutionResult`, a kind
tag and a return value; default-constructed as Normal with a
default (void) value. -/
structure ExecutionResult where
  kind : ExecKind := .normal
  returnValue : BasicValue := .voidV
  deriving DecidableEq, Repr

/-- Runtime errors.  Each constructor corresponds to one
`RuntimeError(...)` call site of `CMMInterpreter.cpp` (messages are
represented structurally); `outOfFuel` is the embedding's fuel bound;
`nullPointerDereference` models the undefined behavior of dispatching
`Stmt->getKind()` on a null statement pointer; `invalidAssignmentTarget`
models the unchecked `static_cast<IdentifierAST *>` on a non-identifier
assignment left side; `divisionByZero` models the C++ trap of integer
division by zero. -/
inductive RtErr where
  | outOfFuel
  | nullPointerDereference
  | singleDeclarationMisuse
  | unknownExpressionKind
  | unimplemented (what : String)
  | undefinedVariable (name : String)
  | undefinedFunction (name : String)
  | redeclaredVariable (name : String)
  | declTypeMismatch (name : String) (declared actualT : BasicType)
  | assignTypeMismatch (name : String) (lhsT rhsT : BasicType)
  | arityMismatch (fname : String) (expected got : Nat)
  | paramTypeMismatch (fname pname : String) (expected actualT : BasicType)
  | returnTypeMismatch (fname : String) (declared got : BasicType)
  | unknownBinaryOperatorKind (k : OperatorKind)
  | assignIndexNotHandled
  | operandTypeError (evaluator : String) (lt rt : BasicType)
  | invalidAssignmentTarget
  | divisionByZero
  | unboundControlFlow
  deriving DecidableEq, Repr

/-- One `VariableEnv::VarMap`: a name-to-value mapping. -/
abbrev Frame := List (String × BasicValue)

/-- Replace the binding of `k` (or append it): `std::map::operator[]`
followed by assignment. -/
def Frame.insertOrReplace : Frame → String → BasicValue → Frame
  | [], k, v => [(k, v)]
  | (k', v') :: rest, k, v =>
      if k' = k then (k, v) :: rest
      else (k', v') :: Frame.insertOrReplace rest k v

/-- The chain of `VariableEnv` objects linked by `OuterEnv`: the local
frames (innermost first) and the process-lifetime `TopLevelEnv` at the
end of the chain. -/
structure EnvChain where
  locals : List Frame
  global : Frame

/-- Walk a frame list and return the first binding found. -/
def lookupInFrames : List Frame → String → Option BasicValue
  | [], _ => none
  | f :: rest, n =>
    match f.lookup n with
    | some v => some v
    | none => lookupInFrames rest n

/-- Update the binding of `n` in the first frame that contains it. -/
def updateInFrames : List Frame → String → BasicValue → List Frame
  | [], _, _ => []
  | f :: rest, n, v =>
    if (f.lookup n).isSome then f.insertOrReplace n v :: rest
    else f :: updateInFrames rest n v

namespace EnvChain

/-- `CMMInterpreter::searchVariable` (value part): walk the chain
outward from the current scope to the top level. -/
def lookupVar (env : EnvChain) (n : String) : Option BasicValue :=
  lookupInFrames (env.locals ++ [env.global]) n

/-- Overwrite the binding found by `searchVariable` (assignment mutates
whichever environment's binding was found). -/
def assignVar (env : EnvChain) (n : String) (v : BasicValue) : EnvChain :=
  if (lookupInFrames env.locals n).isSome then
    { env with locals := updateInFrames env.locals n v }
  else
    { env with global := env.global.insertOrReplace n v }

/-- `Env->contains(Name)`: membership in the current (innermost)
environment only. -/
def containsCurrent (env : EnvChain) (n : String) : Bool :=
  match env.locals with
  | f :: _ => (f.lookup n).isSome
  | [] => (env.global.lookup n).isSome

/-- `Env->VarMap.emplace(Name, Val)` into the current environment (the
caller has checked the name is absent). -/
def insertCurrent (env : EnvChain) (n : String) (v : BasicValue) : EnvChain :=
  match env.locals with
  | f :: rest => { env with locals := ((n, v) :: f) :: rest }
  | [] => { env with global := (n, v) :: env.global }

/-- `VariableEnv CurrentEnv(OuterEnv)` on block entry. -/
def pushFrame (env : EnvChain) : EnvChain :=
  { env with locals := [] :: env.locals }

/-- Scope exit: the innermost frame is destroyed. -/
def popFrame (env : EnvChain) : EnvChain :=
  { env with locals := env.locals.tail }

end EnvChain

/-- The read-only context of the interpreter: the user function table
(from the parser) and the native function bridge.  Native functions are
modelled from the spec as pure value functions (their I/O side effects
are not modelled). -/
structure InterpCtx where
  userFunctionMap : List (String × FunctionDefinitionAST)
  nativeFunctionMap : List (String × (List BasicValue → BasicValue))

/-! ## Pure binary-operator evaluators

`evaluateBinArith`, `evaluateBinLogic`, `evaluateBinRelation` and
`evaluateBinBitwise` are declared in `CMMInterpreter.h` but their
bodies are not under `src/`; they are modelled from the spec:
"arithmetic (int/int → int, otherwise promote to double ...), logical
(bool operands; others rejected), relational (produces bool; numeric or
string comparison), and bitwise/shift (integer operands only) ...  Each
evaluator is fatal on operand-type combinations it does not define". -/

/-- Numeric payload as a rational, for the promote-to-double cases. -/
def BasicValue.toRat? : BasicValue → Option Rat
  | .intV n => some (n : Rat)
  | .doubleV d => some d
  | _ => none

/-- Modelled from the spec: the arithmetic evaluator. -/
def evaluateBinArith (k : OperatorKind) (l r : BasicValue) :
    Except RtErr BasicValue :=
  match l, r with
  | .intV m, .intV n =>
      match k with
      | .add => .ok (.intV (m + n))
      | .minus => .ok (.intV (m - n))
      | .multiply => .ok (.intV (m * n))
      | .division =>
          if n = 0 then .error .divisionByZero else .ok (.intV (Int.tdiv m n))
      | _ => .error (.operandTypeError "arithmetic" l.type r.type)
  | _, _ =>
      match l.toRat?, r.toRat? with
      | some a, some b =>
          match k with
          | .add => .ok (.doubleV (a + b))
          | .minus => .ok (.doubleV (a - b))
          | .multiply => .ok (.doubleV (a * b))
          | .division => .ok (.doubleV (a / b))
          | _ => .error (.operandTypeError "arithmetic" l.type r.type)
      | _, _ => .error (.operandTypeError "arithmetic" l.type r.type)

/-- Modelled from the spec: the logical evaluator. -/
def evaluateBinLogic (k : OperatorKind) (l r : BasicValue) :
    Except RtErr BasicValue :=
  match l, r with
  | .boolV a, .boolV b =>
      match k with
      | .logicalAnd => .ok (.boolV (a && b))
      | .logicalOr => .ok (.boolV (a || b))
      | _ => .error (.operandTypeError "logical" l.type r.type)
  | _, _ => .error (.operandTypeError "logical" l.type r.type)

/-- Modelled from the spec: the relational evaluator (numeric or string
comparison, producing bool). -/
def evaluateBinRelation (k : OperatorKind) (l r : BasicValue) :
    Except RtErr BasicValue :=
  match l, r with
  | .strV a, .strV b =>
      match k with
      | .less => .ok (.boolV (a < b))
      | .lessEqual => .ok (.boolV (a ≤ b))
      | .equalCmp => .ok (.boolV (a = b))
      | .greater => .ok (.boolV (b < a))
      | .greaterEqual => .ok (.boolV (b ≤ a))
      | _ => .error (.operandTypeError "relational" l.type r.type)
  | _, _ =>
      match l.toRat?, r.toRat? with
      | some a, some b =>
          match k with
          | .less => .ok (.boolV (a < b))
          | .lessEqual => .ok (.boolV (a ≤ b))
          | .equalCmp => .ok (.boolV (a = b))
          | .greater => .ok (.boolV (b < a))
          | .greaterEqual => .ok (.boolV (b ≤ a))
          | _ => .error (.operandTypeError "relational" l.type r.type)
      | _, _ => .error (.operandTypeError "relational" l.type r.type)

/-- Modelled from the spec: the bitwise/shift evaluator (integer
operands only; shifts by the natural part of the count, a right shift
is arithmetic). -/
def evaluateBinBitwise (k : OperatorKind) (l r : BasicValue) :
    Except RtErr BasicValue :=
  match l, r with
  | .intV m, .intV n =>
      match k with
      | .bitwiseAnd => .ok (.intV (Int.land m n))
      | .bitwiseOr => .ok (.intV (Int.lor m n))
      | .bitwiseXor => .ok (.intV (Int.xor m n))
      | .leftShift => .ok (.intV (m * 2 ^ n.toNat))
      | .rightShift => .ok (.intV (Int.ediv m (2 ^ n.toNat)))
      | _ => .error (.operandTypeError "bitwise" l.type r.type)
  | _, _ => .error (.operandTypeError "bitwise" l.type r.type)

/-- `CMMInterpreter::evaluateBinaryCalc`: the dispatch switch of
`CMMInterpreter.cpp`.  String `+` takes priority; `Add` falls through
to arithmetic together with `Minus`/`Multiply`/`Division`; `Modulo` is
NOT among the arithmetic cases and falls into the `default:` branch,
`RuntimeError("unknown binary operator kind (code :...)")`, as does
`NotEqual`; `Assign`/`Index` are rejected as handled elsewhere. -/
def evaluateBinaryCalc (k : OperatorKind) (l r : BasicValue) :
    Except RtErr BasicValue :=
  match k with
  | .add =>
      if l.isString || r.isString then .ok (.strV (l.toStr ++ r.toStr))
      else evaluateBinArith .add l r
  | .minus | .multiply | .division => evaluateBinArith k l r
  | .logicalAnd | .logicalOr => evaluateBinLogic k l r
  | .less | .lessEqual | .equalCmp | .greater | .greaterEqual =>
      evaluateBinRelation k l r
  | .bitwiseAnd | .bitwiseOr | .bitwiseXor | .leftShift | .rightShift =>
      evaluateBinBitwise k l r
  | .assign | .index => .error .assignIndexNotHandled
  | .modulo | .notEqual => .error (.unknownBinaryOperatorKind k)

/-- The parameter-binding loop of `CMMInterpreter::callUserFunction`:
each argument's runtime type must exactly equal the declared parameter
type (no widening), and the binding goes through
`FuncEnv.VarMap[name] = Arg`. -/
def bindParams (fname : String) : Frame → List Parameter → List BasicValue →
    Except RtErr Frame
  | acc, _, [] => .ok acc
  | acc, [], _ :: _ => .ok acc
  | acc, p :: ps, a :: as_ =>
      if p.type ≠ a.type then
        .error (.paramTypeMismatch fname p.name p.type a.type)
      else bindParams fname (acc.insertOrReplace p.name a) ps as_

/-! ## The tree-walking evaluator (`CMMInterpreter.cpp`) -/

mutual

/-- `CMMInterpreter::executeStatement`.  A null statement pointer is
dispatched without a null check in the source (`Stmt->getKind()`): the
resulting null-pointer dereference is modelled as the distinguished
error `nullPointerDereference`, independent of fuel.  `IfStatement`
falls through with the default (Normal) result — the call to
`executeIfStatement` is commented out in the source; `While`, `For`,
`Continue`, `Break` and single `Declaration` statements share the
`RuntimeError("single declaration should not be used by user")`
branch. -/
def executeStatement (ctx : InterpCtx) (fuel : Nat) (env : EnvChain) :
    Option Stmt → Except RtErr (ExecutionResult × EnvChain)
  | none => .error .nullPointerDereference
  | some st =>
    match fuel with
    | 0 => .error .outOfFuel
    | fuel + 1 =>
      match st with
      | .exprStmt e => do
          let (_, env) ← evaluateExpression ctx fuel env e
          .ok ({}, env)
      | .block stmts => executeBlock ctx fuel env stmts
      | .ifStmt _ _ _ => .ok ({}, env)
      | .returnStmt (some e) => do
          let (v, env) ← evaluateExpression ctx fuel env e
          .ok ({ kind := .ret, returnValue := v }, env)
      | .returnStmt none => .ok ({ kind := .ret }, env)
      | .whileStmt _ _ => .error .singleDeclarationMisuse
      | .forStmt _ _ _ _ => .error .singleDeclarationMisuse
      | .continueStmt => .error .singleDeclarationMisuse
      | .breakStmt => .error .singleDeclarationMisuse
      | .declList _ decls => executeDeclarationList ctx fuel env decls

/-- `CMMInterpreter::executeBlock`: a fresh environment chained to the
outer one, destroyed on exit. -/
def executeBlock (ctx : InterpCtx) (fuel : Nat) (env : EnvChain)
    (stmts : List (Option Stmt)) : Except RtErr (ExecutionResult × EnvChain) :=
  match fuel with
  | 0 => .error .outOfFuel
  | fuel + 1 => do
      let (res, env') ← executeStmtList ctx fuel env.pushFrame stmts
      .ok (res, env'.popFrame)

/-- The statement loop of `executeBlock`: stop at the first non-Normal
outcome and pass it upward unchanged. -/
def executeStmtList (ctx : InterpCtx) (fuel : Nat) (env : EnvChain) :
    List (Option Stmt) → Except RtErr (ExecutionResult × EnvChain)
  | [] => .ok ({}, env)
  | st :: rest =>
    match fuel with
    | 0 => .error .outOfFuel
    | fuel + 1 => do
        let (res, env) ← executeStatement ctx fuel env st
        if res.kind ≠ .normal then .ok (res, env)
        else executeStmtList ctx fuel env rest

/-- `CMMInterpreter::executeDeclarationList`. -/
def executeDeclarationList (ctx : InterpCtx) (fuel : Nat) (env : EnvChain) :
    List Decl → Except RtErr (ExecutionResult × EnvChain)
  | [] => .ok ({}, env)
  | d :: rest =>
    match fuel with
    | 0 => .error .outOfFuel
    | fuel + 1 => do
        let (_, env) ← executeDeclaration ctx fuel env d
        executeDeclarationList ctx fuel env rest

/-- `CMMInterpreter::executeDeclaration`: redeclaration in the current
scope is fatal; arrays are unimplemented; an initializer's type must
equal the declared type, except that an int value may be widened into a
double-typed declaration; an uninitialized declaration binds the
default value of its type. -/
def executeDeclaration (ctx : InterpCtx) (fuel : Nat) (env : EnvChain)
    (d : Decl) : Except RtErr (ExecutionResult × EnvChain) :=
  match fuel with
  | 0 => .error .outOfFuel
  | fuel + 1 =>
    if env.containsCurrent d.name then .error (.redeclaredVariable d.name)
    else if d.isArray then .error (.unimplemented "array declaration")
    else
      match d.init with
      | some initE => do
          let (v, env) ← evaluateExpression ctx fuel env initE
          if v.type = d.type then .ok ({}, env.insertCurrent d.name v)
          else
            match d.type, v with
            | .doubleType, .intV n =>
                .ok ({}, env.insertCurrent d.name (.doubleV (n : Rat)))
            | _, _ => .error (.declTypeMismatch d.name d.type v.type)
      | none => .ok ({}, env.insertCurrent d.name (BasicValue.defaultOf d.type))

/-- `CMMInterpreter::evaluateExpression`: dispatch on the expression
kind.  `UnaryOperatorExpression` is an explicit runtime fatal
("unimplemented"); a user-infix application node (`InfixOpExprAST`) has
a kind of its own which no case of the switch handles, so it falls into
`default: RuntimeError("unknown expression kind")`. -/
def evaluateExpression (ctx : InterpCtx) (fuel : Nat) (env : EnvChain) :
    Expr → Except RtErr (BasicValue × EnvChain)
  | e =>
    match fuel with
    | 0 => .error .outOfFuel
    | fuel + 1 =>
      match e with
      | .intE n => .ok (.intV n, env)
      | .doubleE d => .ok (.doubleV d, env)
      | .boolE b => .ok (.boolV b, env)
      | .stringE str => .ok (.strV str, env)
      | .identifier n =>
          match env.lookupVar n with
          | some v => .ok (v, env)
          | none => .error (.undefinedVariable n)
      | .functionCall callee args _ =>
          evaluateFunctionCallExpr ctx fuel env callee args
      | .binaryOp k l r => evaluateBinaryOpExpr ctx fuel env k l r
      | .unaryOp _ _ => .error (.unimplemented "unary operator")
      | .infixOpExpr _ _ _ => .error .unknownExpressionKind

/-- `CMMInterpreter::evaluateFunctionCallExpr`: the user function table
first, then the native bridge, else fatal; arguments are evaluated
left-to-right in the caller's environment. -/
def evaluateFunctionCallExpr (ctx : InterpCtx) (fuel : Nat) (env : EnvChain)
    (callee : String) (args : List Expr) :
    Except RtErr (BasicValue × EnvChain) :=
  match fuel with
  | 0 => .error .outOfFuel
  | fuel + 1 =>
    match ctx.userFunctionMap.lookup callee with
    | some f => do
        let (vals, env) ← evaluateArgumentList ctx fuel env args
        let (v, glob) ← callUserFunction ctx fuel env.global f vals
        .ok (v, { env with global := glob })
    | none =>
      match ctx.nativeFunctionMap.lookup callee with
      | some nf => do
          let (vals, env) ← evaluateArgumentList ctx fuel env args
          .ok (nf vals, env)
      | none => .error (.undefinedFunction callee)

/-- `CMMInterpreter::evaluateArgumentList`. -/
def evaluateArgumentList (ctx : InterpCtx) (fuel : Nat) (env : EnvChain) :
    List Expr → Except RtErr (List BasicValue × EnvChain)
  | [] => .ok ([], env)
  | a :: rest =>
    match fuel with
    | 0 => .error .outOfFuel
    | fuel + 1 => do
        let (v, env) ← evaluateExpression ctx fuel env a
        let (vs, env) ← evaluateArgumentList ctx fuel env rest
        .ok (v :: vs, env)

/-- `CMMInterpreter::callUserFunction`: the argument count must equal
the parameter count and every argument's type must exactly equal the
declared parameter type — both checks happen, in this order, before the
body is executed (their position before the fuel guard makes that
explicit); the callee environment chains directly to the top-level
environment; on return, the result type must exactly equal the declared
return type. -/
def callUserFunction (ctx : InterpCtx) (fuel : Nat) (glob : Frame)
    (f : FunctionDefinitionAST) (args : List BasicValue) :
    Except RtErr (BasicValue × Frame) :=
  if args.length ≠ f.params.length then
    .error (.arityMismatch f.name f.params.length args.length)
  else
    match bindParams f.name [] f.params args with
    | .error e => .error e
    | .ok frame =>
      match fuel with
      | 0 => .error .outOfFuel
      | fuel + 1 => do
          let (res, env') ← executeStatement ctx fuel ⟨[frame], glob⟩ f.statement
          if res.returnValue.type ≠ f.retType then
            .error (.returnTypeMismatch f.name f.retType res.returnValue.type)
          else .ok (res.returnValue, env'.global)

/-- `CMMInterpreter::evaluateBinaryOpExpr`: assignment is special-cased
(the left side is reinterpreted as an identifier through an unchecked
downcast — a non-identifier left side is undefined behavior, modelled
as `invalidAssignmentTarget`); indexing is fatal; all other kinds
evaluate both operands and dispatch to `evaluateBinaryCalc`. -/
def evaluateBinaryOpExpr (ctx : InterpCtx) (fuel : Nat) (env : EnvChain)
    (k : OperatorKind) (l r : Expr) : Except RtErr (BasicValue × EnvChain) :=
  match fuel with
  | 0 => .error .outOfFuel
  | fuel + 1 =>
    if k = .assign then
      match l with
      | .identifier name => evaluateAssignment ctx fuel env name r
      | _ => .error .invalidAssignmentTarget
    else if k = .index then .error (.unimplemented "array")
    else do
      let (lv, env) ← evaluateExpression ctx fuel env l
      let (rv, env) ← evaluateExpression ctx fuel env r
      match evaluateBinaryCalc k lv rv with
      | .ok v => .ok (v, env)
      | .error e => .error e

/-- `CMMInterpreter::evaluateAssignment`: the binding is looked up (an
absent one is fatal) before the right side is evaluated; assignment
applies the same int-to-double widening rule as declarations, any other
mismatch is fatal. -/
def evaluateAssignment (ctx : InterpCtx) (fuel : Nat) (env : EnvChain)
    (name : String) (rhsE : Expr) : Except RtErr (BasicValue × EnvChain) :=
  match fuel with
  | 0 => .error .outOfFuel
  | fuel + 1 =>
    if (env.lookupVar name).isNone then .error (.undefinedVariable name)
    else do
      let (rv, env) ← evaluateExpression ctx fuel env rhsE
      match env.lookupVar name with
      | none => .error (.undefinedVariable name)
      | some lv =>
        if lv.type = rv.type then .ok (rv, env.assignVar name rv)
        else
          match lv, rv with
          | .doubleV _, .intV n =>
              .ok (.doubleV (n : Rat), env.assignVar name (.doubleV (n : Rat)))
          | _, _ => .error (.assignTypeMismatch name lv.type rv.type)

end

/-- `CMMInterpreter::interpret`: execute the top-level statement list
against the top-level environment; a non-Normal outcome reaching the
top level is the fatal "unbounded break/continue/return". -/
def interpret (ctx : InterpCtx) (fuel : Nat) :
    Frame → List (Option Stmt) → Except RtErr Frame
  | glob, [] => .ok glob
  | glob, st :: rest => do
      let (res, env) ← executeStatement ctx fuel ⟨[], glob⟩ st
      if res.kind ≠ .normal then .error .unboundControlFlow
      else interpret ctx fuel env.global rest

/-- Modelled from the spec: the native function bridge (its header is
not under `src/`); `print`, `println` and `system` are pre-registered;
their I/O effects are outside the model, each returns the default
value. -/
def nativeStub (_ : List BasicValue) : BasicValue := .voidV

/-- `CMMInterpreter::addNativeFunctions`. -/
def addNativeFunctions : List (String × (List BasicValue → BasicValue)) :=
  [("print", nativeStub), ("println", nativeStub), ("system", nativeStub)]

/-- The interpreter context obtained from a finished parse (the
constructor wires the parser's function table into the
interpreter). -/
def InterpCtx.ofParse (s : PState) : InterpCtx :=
  ⟨s.functionDefs, addNativeFunctions⟩

/-! ## Concrete fixtures used by witnesses and counterexamples -/

/-- An interpreter context with no user functions and no natives. -/
def emptyCtx : InterpCtx := ⟨[], []⟩

/-- The empty environment chain (top-level frame only). -/
def emptyEnv : EnvChain := ⟨[], []⟩



def tables (s : PState) :
    List (String × Int) × List (String × InfixOpDefinitionAST) ×
      List (String × FunctionDefinitionAST) :=
  (s.binOpPrecedence, s.userInfixDefs, s.functionDefs)



def fdFirst : FunctionDefinitionAST :=
  ⟨"f", .intType, [], some (.returnStmt (some (.intE 1)))⟩

def sDup : PState :=
  { toks := [.lParen, .rParen, .kwReturn, .integer 2, .semicolon],
    functionDefs := [("f", fdFirst)] }

def sDup' : PState :=
  { toks := [], functionDefs := [("f", fdFirst)],
    warnings := ["function f overrides another one"] }


mutual

/-- Every assignment node in an expression has a plain identifier as its
left side (recursively through all subexpressions). -/
def assignOk : Expr → Bool
  | .intE _ => true
  | .doubleE _ => true
  | .boolE _ => true
  | .stringE _ => true
  | .identifier _ => true
  | .functionCall _ args _ => assignOkList args
  | .binaryOp .assign l r => l.isIdentifierE && assignOk r
  | .binaryOp _ l r => assignOk l && assignOk r
  | .unaryOp _ e => assignOk e
  | .infixOpExpr _ l r => assignOk l && assignOk r

/-- `assignOk` for every expression of an argument list. -/
def assignOkList : List Expr → Bool
  | [] => true
  | e :: rest => assignOk e && assignOkList rest

end


/-- The builtin binary-operator tokens of `getBinOpPrecedence` other
than `=` (assignment is pre-checked before the precedence loop) and
user infix symbols (which go through the mutable table). -/
def isBuiltinBinOpTok : Token → Bool
  | .pipePipe | .ampAmp | .pipe | .caret | .amp
  | .equalEqual | .exclaimEqual
  | .less | .lessEqual | .greater | .greaterEqual
  | .lessLess | .greaterGreater
  | .plus | .minus | .star | .slash | .percent => true
  | _ => false


/-- The token stream of the C1 counterexample program:
`infix 5 a <> b = a - b;` then `infix 6 c <> d = c + d;` (a second
definition of the same operator symbol with a different precedence,
operand names and body), then `int f() return 1;` and a second
`int f() return 2;`. -/
def c1toks : List Token :=
  [.kwInfix, .integer 5, .identifier "a", .infixOp "<>", .identifier "b",
     .equal, .identifier "a", .minus, .identifier "b", .semicolon,
   .kwInfix, .integer 6, .identifier "c", .infixOp "<>", .identifier "d",
     .equal, .identifier "c", .plus, .identifier "d", .semicolon,
   .kwInt, .identifier "f", .lParen, .rParen,
     .kwReturn, .integer 1, .semicolon,
   .kwInt, .identifier "f", .lParen, .rParen,
     .kwReturn, .integer 2, .semicolon]

/-- The token stream of the C3 program:
`infix 5 a <> b = a - b;  10 <> 3 <> 1;`. -/
def c3toks : List Token :=
  [.kwInfix, .integer 5, .identifier "a", .infixOp "<>", .identifier "b",
     .equal, .identifier "a", .minus, .identifier "b", .semicolon,
   .integer 10, .infixOp "<>", .integer 3, .infixOp "<>", .integer 1,
     .semicolon]

/-! ## Theorems: auxiliary lemmas -/

theorem emplace_present {α : Type} (k : String) (v : α)
    (m : List (String × α)) (h : (m.lookup k).isSome) :
    emplace k v m = (m, false) := by
  simp [emplace, h]

theorem emplace_absent {α : Type} (k : String) (v : α)
    (m : List (String × α)) (h : (m.lookup k).isSome = false) :
    emplace k v m = ((k, v) :: m, true) := by
  simp [emplace, h]

theorem parseTypeSpecifier_tables {s : PState} {ty : BasicType} {s' : PState}
    (h : parseTypeSpecifier s = .ok (ty, s')) : tables s' = tables s := by
  rw [parseTypeSpecifier] at h
  split at h <;> first | exact Except.noConfusion h | (cases h; rfl)

theorem parseConstantExpression_tables {s : PState} {e : Expr} {s' : PState}
    (h : parseConstantExpression s = .ok (e, s')) : tables s' = tables s := by
  rw [parseConstantExpression] at h
  split at h <;> first | exact Except.noConfusion h | (cases h; rfl)

theorem parseEmptyStatement_tables {s : PState} {st : Option Stmt} {s' : PState}
    (h : parseEmptyStatement s = .ok (st, s')) : tables s' = tables s := by
  rw [parseEmptyStatement] at h
  cases h; rfl

theorem parseBreakStatement_tables {s : PState} {st : Option Stmt} {s' : PState}
    (h : parseBreakStatement s = .ok (st, s')) : tables s' = tables s := by
  rw [parseBreakStatement] at h
  split at h <;> first | exact Except.noConfusion h | (cases h; rfl)

theorem parseContinueStatement_tables {s : PState} {st : Option Stmt} {s' : PState}
    (h : parseContinueStatement s = .ok (st, s')) : tables s' = tables s := by
  rw [parseContinueStatement] at h
  split at h <;> first | exact Except.noConfusion h | (cases h; rfl)

theorem parseParamItems_tables :
    ∀ (fuel : Nat) (acc : List Parameter) (s : PState),
      tables (parseParamItems fuel acc s).2 = tables s := by
  intro fuel
  induction fuel with
  | zero => intro acc s; rfl
  | succ fuel ih =>
    intro acc s
    rw [parseParamItems]
    split
    · rfl
    · rename_i ty s1 heq
      have h1 : tables s1 = tables s := parseTypeSpecifier_tables heq
      split
      · rename_i nm s2 hname
        have h2 : tables s2 = tables s1 := by
          split at hname <;> (cases hname; rfl)
        split
        · exact (ih _ _).trans (h2.trans h1)
        · exact h2.trans h1

theorem parseParameterList_tables (fuel : Nat) (s : PState) :
    tables (parseParameterList fuel s).2 = tables s := by
  rw [parseParameterList]
  split
  · rfl
  · exact parseParamItems_tables fuel [] s


theorem tables_lex (s : PState) : tables s.lex = tables s := rfl

theorem tables_warn (s : PState) (msg : String) : tables (s.warn msg) = tables s := rfl


theorem parseExpr_tables (fuel : Nat)
  (ihPrim : ∀ s e s', parsePrimaryExpression fuel s = .ok (e, s') → tables s' = tables s)
  (ihRHS : ∀ p res s e s', parseBinOpRHS fuel p res s = .ok (e, s') → tables s' = tables s) :
  ∀ s e s', parseExpression (fuel+1) s = .ok (e, s') → tables s' = tables s := by
  intro s e s' h
  rw [parseExpression] at h
  simp only [bind, Except.bind] at h
  split at h
  · exact Except.noConfusion h
  · rename_i pr heq
    obtain ⟨lhs, s1⟩ := pr
    exact (ihRHS _ _ _ _ _ h).trans (ihPrim _ _ _ heq)

theorem parsePrim_tables (fuel : Nat)
  (ihPrim : ∀ s e s', parsePrimaryExpression fuel s = .ok (e, s') → tables s' = tables s)
  (ihParen : ∀ s e s', parseParenExpression fuel s = .ok (e, s') → tables s' = tables s)
  (ihIdent : ∀ s e s', parseIdentifierExpression fuel s = .ok (e, s') → tables s' = tables s)
  (ihIdx : ∀ res s e s', parseIndexSuffixes fuel res s = .ok (e, s') → tables s' = tables s) :
  ∀ s e s', parsePrimaryExpression (fuel+1) s = .ok (e, s') → tables s' = tables s := by
  intro s e s' h
  rw [parsePrimaryExpression] at h
  simp only [bind, Except.bind] at h
  split at h
  all_goals try exact Except.noConfusion h
  all_goals try exact ihParen _ _ _ h
  all_goals try exact parseConstantExpression_tables h
  -- remaining: the identifier arm and the four unary-operator arms
  all_goals
    split at h <;>
      first
        | exact Except.noConfusion h
        | (rename_i pr heq
           obtain ⟨x1, sx⟩ := pr
           first
             | exact (ihIdx _ _ _ _ h).trans (ihIdent _ _ _ heq)
             | (cases h; exact (ihPrim _ _ _ heq).trans (by rfl)))

theorem parseIdxSuf_tables (fuel : Nat)
  (ihExpr : ∀ s e s', parseExpression fuel s = .ok (e, s') → tables s' = tables s)
  (ihIdx : ∀ res s e s', parseIndexSuffixes fuel res s = .ok (e, s') → tables s' = tables s) :
  ∀ res s e s', parseIndexSuffixes (fuel+1) res s = .ok (e, s') → tables s' = tables s := by
  intro res s e s' h
  rw [parseIndexSuffixes] at h
  simp only [bind, Except.bind] at h
  split at h
  · split at h
    · exact Except.noConfusion h
    · rename_i pr heq
      obtain ⟨idx, s1⟩ := pr
      split at h
      · exact (ihIdx _ _ _ _ h).trans ((ihExpr _ _ _ heq).trans (by rfl))
      · exact Except.noConfusion h
  · cases h; rfl

theorem parseParen_tables (fuel : Nat)
  (ihExpr : ∀ s e s', parseExpression fuel s = .ok (e, s') → tables s' = tables s) :
  ∀ s e s', parseParenExpression (fuel+1) s = .ok (e, s') → tables s' = tables s := by
  intro s e s' h
  rw [parseParenExpression] at h
  simp only [bind, Except.bind] at h
  split at h
  · exact Except.noConfusion h
  · rename_i pr heq
    obtain ⟨e1, s1⟩ := pr
    split at h
    · cases h; exact (ihExpr _ _ _ heq).trans (by rfl)
    · exact Except.noConfusion h

theorem parseIdentE_tables (fuel : Nat)
  (ihOptArg : ∀ s es s', parseOptionalArgList fuel s = .ok (es, s') → tables s' = tables s) :
  ∀ s e s', parseIdentifierExpression (fuel+1) s = .ok (e, s') → tables s' = tables s := by
  intro s e s' h
  rw [parseIdentifierExpression] at h
  simp only [bind, Except.bind] at h
  split at h
  · split at h <;> split at h <;>
      first
        | (cases h; rfl)
        | (split at h <;>
            first
              | exact Except.noConfusion h
              | (rename_i pr heq
                 obtain ⟨args1, s1⟩ := pr
                 split at h <;>
                   first
                     | exact Except.noConfusion h
                     | (cases h; exact (ihOptArg _ _ _ heq).trans (by rfl))))
  · exact Except.noConfusion h

theorem parseOptArg_tables (fuel : Nat)
  (ihArg : ∀ acc s es s', parseArgumentList fuel acc s = .ok (es, s') → tables s' = tables s) :
  ∀ s es s', parseOptionalArgList (fuel+1) s = .ok (es, s') → tables s' = tables s := by
  intro s es s' h
  rw [parseOptionalArgList] at h
  split at h
  · cases h; rfl
  · exact ihArg _ _ _ _ h

theorem parseArgList_tables (fuel : Nat)
  (ihExpr : ∀ s e s', parseExpression fuel s = .ok (e, s') → tables s' = tables s)
  (ihArg : ∀ acc s es s', parseArgumentList fuel acc s = .ok (es, s') → tables s' = tables s) :
  ∀ acc s es s', parseArgumentList (fuel+1) acc s = .ok (es, s') → tables s' = tables s := by
  intro acc s es s' h
  rw [parseArgumentList] at h
  simp only [bind, Except.bind] at h
  split at h
  · exact Except.noConfusion h
  · rename_i pr heq
    obtain ⟨e1, s1⟩ := pr
    split at h
    · exact (ihArg _ _ _ _ h).trans ((ihExpr _ _ _ heq).trans (by rfl))
    · cases h; exact ihExpr _ _ _ heq

theorem parseRHS_tables (fuel : Nat)
  (ihExpr : ∀ s e s', parseExpression fuel s = .ok (e, s') → tables s' = tables s)
  (ihLoop : ∀ p res s e s', parseBinOpRHSLoop fuel p res s = .ok (e, s') → tables s' = tables s) :
  ∀ p res s e s', parseBinOpRHS (fuel+1) p res s = .ok (e, s') → tables s' = tables s := by
  intro p res s e s' h
  rw [parseBinOpRHS] at h
  simp only [bind, Except.bind] at h
  split at h
  · split at h
    · exact Except.noConfusion h
    · rename_i pr heq
      obtain ⟨rhs1, s1⟩ := pr
      split at h
      · cases h; exact (ihExpr _ _ _ heq).trans (by rfl)
      · exact Except.noConfusion h
  · exact ihLoop _ _ _ _ _ h

theorem parseLoop_tables (fuel : Nat)
  (ihPrim : ∀ s e s', parsePrimaryExpression fuel s = .ok (e, s') → tables s' = tables s)
  (ihRHS : ∀ p res s e s', parseBinOpRHS fuel p res s = .ok (e, s') → tables s' = tables s)
  (ihLoop : ∀ p res s e s', parseBinOpRHSLoop fuel p res s = .ok (e, s') → tables s' = tables s) :
  ∀ p res s e s', parseBinOpRHSLoop (fuel+1) p res s = .ok (e, s') → tables s' = tables s := by
  intro p res s e s' h
  rw [parseBinOpRHSLoop] at h
  simp only [bind, Except.bind] at h
  split at h
  · cases h; rfl
  · split at h
    · exact Except.noConfusion h
    · rename_i pr heq1
      obtain ⟨rhs1, s1⟩ := pr
      have h01 : tables s1 = tables s := (ihPrim _ _ _ heq1).trans (by rfl)
      split at h
      · -- tighter operator follows: inner parseBinOpRHS
        split at h
        · exact Except.noConfusion h
        · rename_i pr2 heq2
          obtain ⟨rhs2, s2⟩ := pr2
          have h12 : tables s2 = tables s1 := ihRHS _ _ _ _ _ heq2
          split at h
          · exact ((ihLoop _ _ _ _ _ h).trans h12).trans h01
          · split at h
            · exact ((ihLoop _ _ _ _ _ h).trans h12).trans h01
            · exact Except.noConfusion h
      · -- no tighter operator: fold directly
        split at h
        · exact (ihLoop _ _ _ _ _ h).trans h01
        · split at h
          · exact (ihLoop _ _ _ _ _ h).trans h01
          · exact Except.noConfusion h


set_option maxHeartbeats 2000000 in
theorem parseStmt_tables (fuel : Nat)
  (ihBlock : ∀ s st s', parseBlock fuel s = .ok (st, s') → tables s' = tables s)
  (ihIf : ∀ s st s', parseIfStatement fuel s = .ok (st, s') → tables s' = tables s)
  (ihWhile : ∀ s st s', parseWhileStatement fuel s = .ok (st, s') → tables s' = tables s)
  (ihFor : ∀ s st s', parseForStatement fuel s = .ok (st, s') → tables s' = tables s)
  (ihRet : ∀ s st s', parseReturnStatement fuel s = .ok (st, s') → tables s' = tables s)
  (ihExprSt : ∀ s st s', parseExprStatement fuel s = .ok (st, s') → tables s' = tables s)
  (ihDecl : ∀ s st s', parseDeclarationStatement fuel s = .ok (st, s') → tables s' = tables s) :
  ∀ s st s', parseStatement (fuel+1) s = .ok (st, s') → tables s' = tables s := by
  intro s st s' h
  rw [parseStatement] at h
  split at h <;>
    first
      | exact Except.noConfusion h
      | exact ihBlock _ _ _ h
      | exact ihIf _ _ _ h
      | exact ihWhile _ _ _ h
      | exact ihFor _ _ _ h
      | exact ihRet _ _ _ h
      | exact parseBreakStatement_tables h
      | exact parseContinueStatement_tables h
      | exact parseEmptyStatement_tables h
      | exact ihDecl _ _ _ h
      | exact ihExprSt _ _ _ h

theorem parseBlock_tables (fuel : Nat)
  (ihItems : ∀ acc s sts s', parseBlockItems fuel acc s = .ok (sts, s') → tables s' = tables s) :
  ∀ s st s', parseBlock (fuel+1) s = .ok (st, s') → tables s' = tables s := by
  intro s st s' h
  rw [parseBlock] at h
  simp only [bind, Except.bind] at h
  split at h
  · exact Except.noConfusion h
  · rename_i pr heq
    obtain ⟨stmts, s1⟩ := pr
    cases h; exact (ihItems _ _ _ _ heq).trans (by rfl)

theorem parseBlockItems_tables (fuel : Nat)
  (ihStmt : ∀ s st s', parseStatement fuel s = .ok (st, s') → tables s' = tables s)
  (ihItems : ∀ acc s sts s', parseBlockItems fuel acc s = .ok (sts, s') → tables s' = tables s) :
  ∀ acc s sts s', parseBlockItems (fuel+1) acc s = .ok (sts, s') → tables s' = tables s := by
  intro acc s sts s' h
  rw [parseBlockItems] at h
  simp only [bind, Except.bind] at h
  split at h
  · cases h; rfl
  · split at h
    · exact Except.noConfusion h
    · rename_i pr heq
      obtain ⟨st1, s1⟩ := pr
      exact (ihItems _ _ _ _ h).trans (ihStmt _ _ _ heq)

theorem parseIf_tables (fuel : Nat)
  (ihExpr : ∀ s e s', parseExpression fuel s = .ok (e, s') → tables s' = tables s)
  (ihStmt : ∀ s st s', parseStatement fuel s = .ok (st, s') → tables s' = tables s) :
  ∀ s st s', parseIfStatement (fuel+1) s = .ok (st, s') → tables s' = tables s := by
  intro s st s' h
  rw [parseIfStatement] at h
  simp only [bind, Except.bind] at h
  split at h
  · split at h
    · exact Except.noConfusion h
    · rename_i pr heq1
      obtain ⟨cond, s1⟩ := pr
      have h01 : tables s1 = tables s := (ihExpr _ _ _ heq1).trans (by rfl)
      split at h
      · split at h
        · exact Except.noConfusion h
        · rename_i pr2 heq2
          obtain ⟨thenS, s2⟩ := pr2
          have h12 : tables s2 = tables s1 := (ihStmt _ _ _ heq2).trans (by rfl)
          split at h
          · split at h
            · exact Except.noConfusion h
            · rename_i pr3 heq3
              obtain ⟨elseS, s3⟩ := pr3
              cases h
              exact (((ihStmt _ _ _ heq3).trans (by rfl)).trans h12).trans h01
          · cases h; exact h12.trans h01
      · exact Except.noConfusion h
  · exact Except.noConfusion h

theorem parseWhile_tables (fuel : Nat)
  (ihExpr : ∀ s e s', parseExpression fuel s = .ok (e, s') → tables s' = tables s)
  (ihStmt : ∀ s st s', parseStatement fuel s = .ok (st, s') → tables s' = tables s) :
  ∀ s st s', parseWhileStatement (fuel+1) s = .ok (st, s') → tables s' = tables s := by
  intro s st s' h
  rw [parseWhileStatement] at h
  simp only [bind, Except.bind] at h
  split at h
  · split at h
    · exact Except.noConfusion h
    · rename_i pr heq1
      obtain ⟨cond, s1⟩ := pr
      split at h
      · split at h
        · exact Except.noConfusion h
        · rename_i pr2 heq2
          obtain ⟨body, s2⟩ := pr2
          cases h
          exact ((ihStmt _ _ _ heq2).trans (by rfl)).trans
            ((ihExpr _ _ _ heq1).trans (by rfl))
      · exact Except.noConfusion h
  · exact Except.noConfusion h

theorem parseForOptExpr_tables (fuel : Nat)
  (ihExpr : ∀ s e s', parseExpression fuel s = .ok (e, s') → tables s' = tables s) :
  ∀ stopTok s oe s', parseForOptExpr (fuel+1) stopTok s = .ok (oe, s') →
    tables s' = tables s := by
  intro stopTok s oe s' h
  rw [parseForOptExpr] at h
  simp only [bind, Except.bind, pure, Except.pure] at h
  split at h
  · split at h
    · exact Except.noConfusion h
    · rename_i pr heq
      obtain ⟨e1, s1⟩ := pr
      cases h; exact ihExpr _ _ _ heq
  · cases h; rfl

theorem parseFor_tables (fuel : Nat)
  (ihOpt : ∀ stopTok s oe s', parseForOptExpr fuel stopTok s = .ok (oe, s') → tables s' = tables s)
  (ihStmt : ∀ s st s', parseStatement fuel s = .ok (st, s') → tables s' = tables s) :
  ∀ s st s', parseForStatement (fuel+1) s = .ok (st, s') → tables s' = tables s := by
  intro s st s' h
  rw [parseForStatement] at h
  simp only [bind, Except.bind] at h
  split at h
  · split at h
    · exact Except.noConfusion h
    · rename_i pr1 heq1
      obtain ⟨initE, s1⟩ := pr1
      have h01 : tables s1 = tables s := (ihOpt _ _ _ _ heq1).trans (by rfl)
      split at h
      · split at h
        · exact Except.noConfusion h
        · rename_i pr2 heq2
          obtain ⟨condE, s2⟩ := pr2
          have h12 : tables s2 = tables s1 := (ihOpt _ _ _ _ heq2).trans (by rfl)
          split at h
          · split at h
            · exact Except.noConfusion h
            · rename_i pr3 heq3
              obtain ⟨postE, s3⟩ := pr3
              have h23 : tables s3 = tables s2 := (ihOpt _ _ _ _ heq3).trans (by rfl)
              split at h
              · split at h
                · exact Except.noConfusion h
                · rename_i pr4 heq4
                  obtain ⟨body, s4⟩ := pr4
                  cases h
                  exact ((((ihStmt _ _ _ heq4).trans (by rfl)).trans h23).trans h12).trans h01
              · exact Except.noConfusion h
          · exact Except.noConfusion h
      · exact Except.noConfusion h
  · exact Except.noConfusion h


theorem parseReturn_tables (fuel : Nat)
  (ihExpr : ∀ s e s', parseExpression fuel s = .ok (e, s') → tables s' = tables s) :
  ∀ s st s', parseReturnStatement (fuel+1) s = .ok (st, s') → tables s' = tables s := by
  intro s st s' h
  rw [parseReturnStatement] at h
  simp only [bind, Except.bind] at h
  split at h
  · split at h
    · exact Except.noConfusion h
    · rename_i pr heq
      obtain ⟨e1, s1⟩ := pr
      split at h
      · cases h; exact (ihExpr _ _ _ heq).trans (by rfl)
      · exact Except.noConfusion h
  · cases h; rfl

theorem parseExprSt_tables (fuel : Nat)
  (ihExpr : ∀ s e s', parseExpression fuel s = .ok (e, s') → tables s' = tables s) :
  ∀ s st s', parseExprStatement (fuel+1) s = .ok (st, s') → tables s' = tables s := by
  intro s st s' h
  rw [parseExprStatement] at h
  simp only [bind, Except.bind] at h
  split at h
  · exact Except.noConfusion h
  · rename_i pr heq
    obtain ⟨e1, s1⟩ := pr
    split at h
    · cases h; exact (ihExpr _ _ _ heq).trans (by rfl)
    · exact Except.noConfusion h

theorem parseCountExprs_tables (fuel : Nat)
  (ihExpr : ∀ s e s', parseExpression fuel s = .ok (e, s') → tables s' = tables s)
  (ihCounts : ∀ acc s es s', parseCountExprs fuel acc s = .ok (es, s') → tables s' = tables s) :
  ∀ acc s es s', parseCountExprs (fuel+1) acc s = .ok (es, s') → tables s' = tables s := by
  intro acc s es s' h
  rw [parseCountExprs] at h
  simp only [bind, Except.bind] at h
  split at h
  · split at h
    · exact Except.noConfusion h
    · rename_i pr heq
      obtain ⟨e1, s1⟩ := pr
      split at h
      · exact (ihCounts _ _ _ _ h).trans ((ihExpr _ _ _ heq).trans (by rfl))
      · exact Except.noConfusion h
  · cases h; rfl

theorem parseDeclarators_tables (fuel : Nat)
  (ihExpr : ∀ s e s', parseExpression fuel s = .ok (e, s') → tables s' = tables s)
  (ihCounts : ∀ acc s es s', parseCountExprs fuel acc s = .ok (es, s') → tables s' = tables s)
  (ihDecls : ∀ ty acc s ds s', parseDeclarators fuel ty acc s = .ok (ds, s') → tables s' = tables s) :
  ∀ ty acc s ds s', parseDeclarators (fuel+1) ty acc s = .ok (ds, s') → tables s' = tables s := by
  intro ty acc s ds s' h
  rw [parseDeclarators] at h
  simp only [bind, Except.bind, pure, Except.pure] at h
  split at h
  · -- identifier arm
    split at h
    · exact Except.noConfusion h
    · rename_i pr1 heq1
      obtain ⟨counts, s1⟩ := pr1
      have h01 : tables s1 = tables s := (ihCounts _ _ _ _ heq1).trans (by rfl)
      split at h
      · -- initializer present
        split at h
        · exact Except.noConfusion h
        · rename_i pr2 heq2
          obtain ⟨e2, s2⟩ := pr2
          have h12 : tables s2 = tables s1 := (ihExpr _ _ _ heq2).trans (by rfl)
          split at h
          · exact (ihDecls _ _ _ _ _ h).trans (h12.trans h01)
          · cases h; exact h12.trans h01
      · -- no initializer
        split at h
        · exact (ihDecls _ _ _ _ _ h).trans h01
        · cases h; exact h01
  · exact Except.noConfusion h

theorem parseDeclTyped_tables (fuel : Nat)
  (ihDecls : ∀ ty acc s ds s', parseDeclarators fuel ty acc s = .ok (ds, s') → tables s' = tables s) :
  ∀ ty s st s', parseDeclarationStatementTyped (fuel+1) ty s = .ok (st, s') → tables s' = tables s := by
  intro ty s st s' h
  rw [parseDeclarationStatementTyped] at h
  simp only [bind, Except.bind] at h
  split at h
  · exact Except.noConfusion h
  · rename_i pr heq
    obtain ⟨decls, s1⟩ := pr
    split at h
    · cases h; exact (ihDecls _ _ _ _ _ heq).trans (by rfl)
    · exact Except.noConfusion h

theorem parseDeclStmt_tables (fuel : Nat)
  (ihDeclTy : ∀ ty s st s', parseDeclarationStatementTyped fuel ty s = .ok (st, s') → tables s' = tables s) :
  ∀ s st s', parseDeclarationStatement (fuel+1) s = .ok (st, s') → tables s' = tables s := by
  intro s st s' h
  rw [parseDeclarationStatement] at h
  simp only [bind, Except.bind] at h
  split at h
  · exact Except.noConfusion h
  · rename_i pr heq
    obtain ⟨ty, s1⟩ := pr
    exact (ihDeclTy _ _ _ _ h).trans (parseTypeSpecifier_tables heq)


/-- Statement- and expression-level parse functions never touch the
operator-precedence, infix-definition or function-definition tables:
those are only modified by `parseInfixOpDefinition` and
`parseFunctionDefinition` (reachable from `parseTopLevel` only). -/
theorem parser_tables_inv : ∀ fuel : Nat,
    (∀ s e s', parseExpression fuel s = .ok (e, s') → tables s' = tables s) ∧
    (∀ s e s', parsePrimaryExpression fuel s = .ok (e, s') → tables s' = tables s) ∧
    (∀ res s e s', parseIndexSuffixes fuel res s = .ok (e, s') → tables s' = tables s) ∧
    (∀ s e s', parseParenExpression fuel s = .ok (e, s') → tables s' = tables s) ∧
    (∀ s e s', parseIdentifierExpression fuel s = .ok (e, s') → tables s' = tables s) ∧
    (∀ s es s', parseOptionalArgList fuel s = .ok (es, s') → tables s' = tables s) ∧
    (∀ acc s es s', parseArgumentList fuel acc s = .ok (es, s') → tables s' = tables s) ∧
    (∀ p res s e s', parseBinOpRHS fuel p res s = .ok (e, s') → tables s' = tables s) ∧
    (∀ p res s e s', parseBinOpRHSLoop fuel p res s = .ok (e, s') → tables s' = tables s) ∧
    (∀ s st s', parseStatement fuel s = .ok (st, s') → tables s' = tables s) ∧
    (∀ s st s', parseBlock fuel s = .ok (st, s') → tables s' = tables s) ∧
    (∀ acc s sts s', parseBlockItems fuel acc s = .ok (sts, s') → tables s' = tables s) ∧
    (∀ s st s', parseIfStatement fuel s = .ok (st, s') → tables s' = tables s) ∧
    (∀ s st s', parseWhileStatement fuel s = .ok (st, s') → tables s' = tables s) ∧
    (∀ stopTok s oe s', parseForOptExpr fuel stopTok s = .ok (oe, s') → tables s' = tables s) ∧
    (∀ s st s', parseForStatement fuel s = .ok (st, s') → tables s' = tables s) ∧
    (∀ s st s', parseReturnStatement fuel s = .ok (st, s') → tables s' = tables s) ∧
    (∀ s st s', parseExprStatement fuel s = .ok (st, s') → tables s' = tables s) ∧
    (∀ acc s es s', parseCountExprs fuel acc s = .ok (es, s') → tables s' = tables s) ∧
    (∀ ty acc s ds s', parseDeclarators fuel ty acc s = .ok (ds, s') → tables s' = tables s) ∧
    (∀ ty s st s', parseDeclarationStatementTyped fuel ty s = .ok (st, s') → tables s' = tables s) ∧
    (∀ s st s', parseDeclarationStatement fuel s = .ok (st, s') → tables s' = tables s) := by
  intro fuel
  induction fuel with
  | zero =>
    refine ⟨?_, ?_, ?_, ?_, ?_, ?_, ?_, ?_, ?_, ?_, ?_, ?_, ?_, ?_, ?_, ?_,
      ?_, ?_, ?_, ?_, ?_, ?_⟩ <;>
      (intros; rename_i h;
       simp [parseExpression, parsePrimaryExpression, parseIndexSuffixes,
         parseParenExpression, parseIdentifierExpression, parseOptionalArgList,
         parseArgumentList, parseBinOpRHS, parseBinOpRHSLoop, parseStatement,
         parseBlock, parseBlockItems, parseIfStatement, parseWhileStatement,
         parseForOptExpr, parseForStatement, parseReturnStatement,
         parseExprStatement, parseCountExprs, parseDeclarators,
         parseDeclarationStatementTyped, parseDeclarationStatement] at h)
  | succ fuel ih =>
    obtain ⟨ihExpr, ihPrim, ihIdx, ihParen, ihIdent, ihOptArg, ihArg, ihRHS,
      ihLoop, ihStmtP, ihBlock, ihItems, ihIf, ihWhile, ihOptE, ihFor, ihRet,
      ihExprSt, ihCounts, ihDecls, ihDeclTy, ihDeclSt⟩ := ih
    exact ⟨parseExpr_tables fuel ihPrim ihRHS,
      parsePrim_tables fuel ihPrim ihParen ihIdent ihIdx,
      parseIdxSuf_tables fuel ihExpr ihIdx,
      parseParen_tables fuel ihExpr,
      parseIdentE_tables fuel ihOptArg,
      parseOptArg_tables fuel ihArg,
      parseArgList_tables fuel ihExpr ihArg,
      parseRHS_tables fuel ihExpr ihLoop,
      parseLoop_tables fuel ihPrim ihRHS ihLoop,
      parseStmt_tables fuel ihBlock ihIf ihWhile ihFor ihRet ihExprSt ihDeclSt,
      parseBlock_tables fuel ihItems,
      parseBlockItems_tables fuel ihStmtP ihItems,
      parseIf_tables fuel ihExpr ihStmtP,
      parseWhile_tables fuel ihExpr ihStmtP,
      parseForOptExpr_tables fuel ihExpr,
      parseFor_tables fuel ihOptE ihStmtP,
      parseReturn_tables fuel ihExpr,
      parseExprSt_tables fuel ihExpr,
      parseCountExprs_tables fuel ihExpr ihCounts,
      parseDeclarators_tables fuel ihExpr ihCounts ihDecls,
      parseDeclTyped_tables fuel ihDecls,
      parseDeclStmt_tables fuel ihDeclTy⟩

/-- Corollary of `parser_tables_inv` for statements. -/
theorem parseStatement_tables {fuel : Nat} {s : PState} {st : Option Stmt}
    {s' : PState} (h : parseStatement fuel s = .ok (st, s')) :
    tables s' = tables s :=
  (parser_tables_inv fuel).2.2.2.2.2.2.2.2.2.1 s st s' h

/-- Corollary of `parser_tables_inv` for expression statements. -/
theorem parseExprStatement_tables {fuel : Nat} {s : PState} {st : Option Stmt}
    {s' : PState} (h : parseExprStatement fuel s = .ok (st, s')) :
    tables s' = tables s :=
  (parser_tables_inv fuel).2.2.2.2.2.2.2.2.2.2.2.2.2.2.2.2.2.1 s st s' h

/-! ## Theorems: the claims -/

/-- C4 (code_bug): for int operands, the binary modulo operator `%`
does NOT dispatch to the arithmetic evaluator: `Modulo` is absent from
the `Add`/`Minus`/`Multiply`/`Division` case group of
`evaluateBinaryCalc` and falls into the `default:` branch, the fatal
`RuntimeError("unknown binary operator kind (code :...)")` — for every
pair of int operand values.  The second conjunct shows the neighbouring
arithmetic kinds do dispatch and produce an int, as the claim expects
of `%`. -/
theorem evaluateBinaryCalc_modulo_fatal :
    (∀ m n : Int,
      evaluateBinaryCalc .modulo (.intV m) (.intV n) =
        .error (.unknownBinaryOperatorKind .modulo)) ∧
    (∀ m n : Int,
      evaluateBinaryCalc .multiply (.intV m) (.intV n) = .ok (.intV (m * n))) := by
  exact ⟨fun m n => rfl, fun m n => rfl⟩

/-- C9: the statement executor of `CMMInterpreter.cpp` implements only
expression statements, blocks, return statements and declaration lists:
an if statement yields the Normal outcome with the environment
untouched — its condition and branches are arbitrary and never
evaluated (the `executeIfStatement` call is commented out) — and a
while or for statement is the fatal runtime error of the shared
`RuntimeError("single declaration should not be used by user")`
branch, for any fuel left. -/
theorem executeStatement_if_normal_while_for_fatal :
    (∀ (ctx : InterpCtx) (fuel : Nat) (env : EnvChain) (c : Expr)
        (t e : Option Stmt),
      executeStatement ctx (fuel + 1) env (some (.ifStmt c t e)) =
        .ok ({}, env)) ∧
    (∀ (ctx : InterpCtx) (fuel : Nat) (env : EnvChain) (c : Expr)
        (b : Option Stmt),
      executeStatement ctx (fuel + 1) env (some (.whileStmt c b)) =
        .error .singleDeclarationMisuse) ∧
    (∀ (ctx : InterpCtx) (fuel : Nat) (env : EnvChain)
        (i c p : Option Expr) (b : Option Stmt),
      executeStatement ctx (fuel + 1) env (some (.forStmt i c p b)) =
        .error .singleDeclarationMisuse) := by
  refine ⟨?_, ?_, ?_⟩ <;> intros <;> rfl

/-- C2 (counterexample): executing a break statement — and likewise a
continue statement — does not yield the Break (resp. Continue) outcome:
both fall into the fatal `RuntimeError("single declaration should not
be used by user")` branch of `executeStatement`, so execution aborts
instead of producing a tagged outcome. -/
theorem executeStatement_break_continue_counterexample :
    executeStatement emptyCtx 1 emptyEnv (some .breakStmt) =
      .error .singleDeclarationMisuse ∧
    executeStatement emptyCtx 1 emptyEnv (some .continueStmt) =
      .error .singleDeclarationMisuse := ⟨rfl, rfl⟩

/-- C2 (amended): executing a break or continue statement is a fatal
runtime error (the catch-all branch shared with while/for and single
declarations), never a Break or Continue outcome; the part of the claim
that does hold is that a statement list stops at the first non-Normal
outcome (e.g. Return) and passes it upward unchanged. -/
theorem executeStatement_break_continue_fatal :
    (∀ (ctx : InterpCtx) (fuel : Nat) (env : EnvChain),
      executeStatement ctx (fuel + 1) env (some .breakStmt) =
        .error .singleDeclarationMisuse) ∧
    (∀ (ctx : InterpCtx) (fuel : Nat) (env : EnvChain),
      executeStatement ctx (fuel + 1) env (some .continueStmt) =
        .error .singleDeclarationMisuse) ∧
    (∀ (ctx : InterpCtx) (fuel : Nat) (env : EnvChain) (s : Option Stmt)
        (rest : List (Option Stmt)) (res : ExecutionResult) (env1 : EnvChain),
      executeStatement ctx fuel env s = .ok (res, env1) →
      res.kind ≠ .normal →
      executeStmtList ctx (fuel + 1) env (s :: rest) = .ok (res, env1)) := by
  refine ⟨fun _ _ _ => rfl, fun _ _ _ => rfl, ?_⟩
  intro ctx fuel env s rest res env1 h hk
  simp [executeStmtList, h, hk, bind, Except.bind]

/-- C2 (witness for the amended theorem): a Return outcome produced by
the first statement of a list is passed upward unchanged, the rest of
the list unexecuted. -/
theorem executeStatement_break_continue_fatal_witness :
    executeStatement emptyCtx 1 emptyEnv (some (.returnStmt none)) =
      .ok ({ kind := .ret }, emptyEnv) ∧
    (({ kind := .ret } : ExecutionResult)).kind ≠ .normal ∧
    executeStmtList emptyCtx 2 emptyEnv
        [some (.returnStmt none), some .breakStmt] =
      .ok ({ kind := .ret }, emptyEnv) :=
  ⟨rfl, by decide,
    executeStatement_break_continue_fatal.2.2 emptyCtx 1 emptyEnv
      (some (.returnStmt none)) [some .breakStmt] { kind := .ret } emptyEnv
      rfl (by decide)⟩

/-- C6: under the preconditions of the surrounding code paths (the name
is not yet bound in the current scope, the declaration is not an array
declaration, and the initializer evaluates to a value `v`), declaration
execution succeeds exactly when `v`'s runtime type equals the declared
type, or the declared type is double and `v` is an int (which is then
widened to a double); any other mismatch is the fatal type-mismatch
runtime error. -/
theorem executeDeclaration_initializer_typing
    (ctx : InterpCtx) (fuel : Nat) (env env1 : EnvChain) (name : String)
    (ty : BasicType) (initE : Expr) (v : BasicValue)
    (hfresh : env.containsCurrent name = false)
    (heval : evaluateExpression ctx fuel env initE = .ok (v, env1)) :
    ((∃ env2, executeDeclaration ctx (fuel + 1) env ⟨name, ty, some initE, []⟩ =
        .ok ({}, env2)) ↔
      (v.type = ty ∨ (ty = .doubleType ∧ v.type = .intType))) ∧
    (v.type = ty →
      executeDeclaration ctx (fuel + 1) env ⟨name, ty, some initE, []⟩ =
        .ok ({}, env1.insertCurrent name v)) ∧
    (∀ n : Int, v = .intV n → ty = .doubleType →
      executeDeclaration ctx (fuel + 1) env ⟨name, ty, some initE, []⟩ =
        .ok ({}, env1.insertCurrent name (.doubleV (n : Rat)))) ∧
    (v.type ≠ ty → ¬(ty = .doubleType ∧ v.type = .intType) →
      executeDeclaration ctx (fuel + 1) env ⟨name, ty, some initE, []⟩ =
        .error (.declTypeMismatch name ty v.type)) := by
  have key : executeDeclaration ctx (fuel + 1) env ⟨name, ty, some initE, []⟩ =
      (if v.type = ty then .ok ({}, env1.insertCurrent name v)
       else
         match ty, v with
         | .doubleType, .intV n =>
             .ok ({}, env1.insertCurrent name (.doubleV (n : Rat)))
         | _, _ => .error (.declTypeMismatch name ty v.type)) := by
    rw [executeDeclaration]
    rw [hfresh]
    simp only [Bool.false_eq_true, if_false, Decl.isArray, List.isEmpty_nil,
      Bool.not_true, Bool.not_false]
    simp only [bind, Except.bind, heval]
    split
    · rfl
    · cases ty <;> cases v <;> rfl
  refine ⟨?_, ?_, ?_, ?_⟩
  · constructor
    · rintro ⟨env2, h2⟩
      by_cases hvt : v.type = ty
      · exact .inl hvt
      · rw [key, if_neg hvt] at h2
        cases ty <;> cases v <;> simp_all [BasicValue.type]
    · rintro (hvt | ⟨hd, hi⟩)
      · exact ⟨env1.insertCurrent name v, by rw [key, if_pos hvt]⟩
      · subst hd
        cases v <;> simp [BasicValue.type] at hi
        exact ⟨_, by rw [key, if_neg (by simp [BasicValue.type])]⟩
  · intro hvt; rw [key, if_pos hvt]
  · intro n hv hty; subst hv; subst hty
    rw [key, if_neg (by simp [BasicValue.type])]
  · intro hne hnot
    rw [key, if_neg hne]
    cases ty <;> cases v <;> simp_all [BasicValue.type]

/-- C6 (witness): `double y = 3;` (an int-valued initializer into a
double declaration) succeeds via widening and binds `3` as a double. -/
theorem executeDeclaration_initializer_typing_witness :
    emptyEnv.containsCurrent "y" = false ∧
    evaluateExpression emptyCtx 1 emptyEnv (.intE 3) = .ok (.intV 3, emptyEnv) ∧
    executeDeclaration emptyCtx 2 emptyEnv ⟨"y", .doubleType, some (.intE 3), []⟩ =
      .ok ({}, emptyEnv.insertCurrent "y" (.doubleV (3 : Rat))) :=
  ⟨rfl, rfl,
    (executeDeclaration_initializer_typing emptyCtx 1 emptyEnv emptyEnv "y"
      .doubleType (.intE 3) (.intV 3) rfl rfl).2.2.1 3 rfl rfl⟩

/-- Helper for C5: when some parameter/argument pair disagrees on its
type, the binding loop of `callUserFunction` stops at the first such
pair with the fatal parameter-type-mismatch error. -/
theorem bindParams_first_mismatch (fname : String) :
    ∀ (ps : List Parameter) (as_ : List BasicValue) (acc : Frame),
      (∃ pa ∈ ps.zip as_, pa.1.type ≠ pa.2.type) →
      ∃ pn pt at_, bindParams fname acc ps as_ =
        .error (.paramTypeMismatch fname pn pt at_) := by
  intro ps
  induction ps with
  | nil => intro as_ acc h; rcases h with ⟨pa, hmem, _⟩; simp at hmem
  | cons p ps ih =>
    intro as_ acc h
    cases as_ with
    | nil => rcases h with ⟨pa, hmem, _⟩; simp at hmem
    | cons a as' =>
      by_cases hty : p.type = a.type
      · rcases h with ⟨pa, hmem, hne⟩
        simp only [List.zip_cons_cons, List.mem_cons] at hmem
        rcases hmem with h1 | h2
        · subst h1; exact absurd hty hne
        · obtain ⟨pn, pt, at_, hres⟩ :=
            ih as' (acc.insertOrReplace p.name a) ⟨pa, h2, hne⟩
          exact ⟨pn, pt, at_, by simp [bindParams, hty, hres]⟩
      · exact ⟨p.name, p.type, a.type, by simp [bindParams, hty]⟩

/-- C5: a call of a user-defined function whose argument count differs
from the parameter count, or where some argument's runtime type is not
exactly the declared parameter type (no widening — an int argument for
a double parameter is also fatal), aborts with the corresponding fatal
runtime error before the function body executes: the result is this
error for an arbitrary body and for any fuel, including zero. -/
theorem callUserFunction_rejects_bad_args
    (ctx : InterpCtx) (fuel : Nat) (glob : Frame) (name : String)
    (retTy : BasicType) (params : List Parameter) (body : Option Stmt)
    (args : List BasicValue)
    (h : args.length ≠ params.length ∨
      ∃ pa ∈ params.zip args, pa.1.type ≠ pa.2.type) :
    callUserFunction ctx fuel glob ⟨name, retTy, params, body⟩ args =
      .error (.arityMismatch name params.length args.length) ∨
    ∃ pn pt at_,
      callUserFunction ctx fuel glob ⟨name, retTy, params, body⟩ args =
        .error (.paramTypeMismatch name pn pt at_) := by
  by_cases hlen : args.length = params.length
  · rcases h with h | h
    · exact absurd hlen h
    · right
      obtain ⟨pn, pt, at_, hb⟩ := bindParams_first_mismatch name params args [] h
      exact ⟨pn, pt, at_, by simp [callUserFunction, hlen, hb]⟩
  · left; simp [callUserFunction, hlen]

/-- C5 (witness): calling a function declared over one double parameter
with one int argument (a numerically-valid widening) is rejected with
the parameter-type-mismatch error, even with a null body and no fuel at
all — the checks precede body execution. -/
theorem callUserFunction_rejects_bad_args_witness :
    (∃ pa ∈ ([(⟨"w", .doubleType⟩ : Parameter)].zip [BasicValue.intV 1]),
      pa.1.type ≠ pa.2.type) ∧
    (callUserFunction emptyCtx 0 [] ⟨"g", .voidType, [⟨"w", .doubleType⟩], none⟩
        [.intV 1] = .error (.arityMismatch "g" 1 1) ∨
      ∃ pn pt at_,
        callUserFunction emptyCtx 0 [] ⟨"g", .voidType, [⟨"w", .doubleType⟩], none⟩
          [.intV 1] = .error (.paramTypeMismatch "g" pn pt at_)) :=
  ⟨by decide,
    callUserFunction_rejects_bad_args emptyCtx 0 [] "g" .voidType
      [⟨"w", .doubleType⟩] none [.intV 1] (.inr (by decide))⟩

/-- C10: (1) at the top level, a lone `;` parses with the "empty
statement" warning and appends a null statement pointer to the
statement list; (2) statement execution dispatches on the statement
pointer without a null check — `Stmt->getKind()` on null, a null
pointer dereference, modelled by the distinguished error, for any fuel;
(3) hence a run whose earlier statements execute normally crashes with
that dereference exactly when it reaches the bare `;`. -/
theorem empty_statement_null_deref :
    (∀ (fuel : Nat) (s : PState) (rest : List Token),
      s.toks = Token.semicolon :: rest →
      parseTopLevel (fuel + 2) s =
        .ok { s with
              toks := rest,
              warnings := "empty statement" :: s.warnings,
              topLevelStmts := s.topLevelStmts ++ [none] }) ∧
    (∀ (ctx : InterpCtx) (fuel : Nat) (env : EnvChain),
      executeStatement ctx fuel env none = .error .nullPointerDereference) ∧
    (∀ (ctx : InterpCtx) (fuel : Nat) (glob glob1 : Frame)
        (pre post : List (Option Stmt)),
      interpret ctx fuel glob pre = .ok glob1 →
      interpret ctx fuel glob (pre ++ (none : Option Stmt) :: post) =
        .error .nullPointerDereference) := by
  refine ⟨?_, ?_, ?_⟩
  · intro fuel s rest h
    have hcur : s.curTok = .semicolon := by simp [PState.curTok, h]
    rw [parseTopLevel]
    rw [hcur]
    rw [parseStatement]
    rw [hcur]
    simp [parseEmptyStatement, PState.warn, PState.lex, h, bind, Except.bind]
  · intro ctx fuel env; simp [executeStatement]
  · intro ctx fuel glob glob1 pre post h
    induction pre generalizing glob with
    | nil =>
      simp [interpret, executeStatement, bind, Except.bind]
    | cons st pre ih =>
      simp only [List.cons_append]
      rw [interpret] at h
      rw [interpret]
      cases hs : executeStatement ctx fuel ⟨[], glob⟩ st with
      | error e => rw [hs] at h; simp [bind, Except.bind] at h
      | ok p =>
        obtain ⟨res, env⟩ := p
        rw [hs] at h
        simp only [bind, Except.bind] at h ⊢
        by_cases hk : res.kind = .normal
        · simp only [hk, ne_eq, not_true_eq_false, if_false, ite_false] at h ⊢
          · exact ih env.global h
        · simp [hk] at h

/-- C10 (witness): the program `1; ;` parses to a normal expression
statement followed by a null statement pointer, and running it
dereferences the null pointer at the second statement. -/
theorem empty_statement_null_deref_witness :
    interpret emptyCtx 5 []
        [some (Stmt.exprStmt (Expr.intE 1))] = .ok [] ∧
    interpret emptyCtx 5 []
        ([some (Stmt.exprStmt (Expr.intE 1))] ++ (none : Option Stmt) :: []) =
      .error .nullPointerDereference :=
  ⟨rfl,
    empty_statement_null_deref.2.2 emptyCtx 5 [] []
      [some (Stmt.exprStmt (Expr.intE 1))] [] rfl⟩

set_option maxHeartbeats 1000000 in
/-- C1 (counterexample): parsing the program with duplicate `<>` and
duplicate `f` definitions succeeds with warnings only (that part of the
claim holds), but the later definitions do NOT replace the earlier
ones: `std::map::emplace` inserts only when the key is absent, so the
infix table still maps `<>` to the first definition (operand names
`a`/`b`, not `c`/`d`), the precedence table still maps `<>` to 5 (not
6), and the function table still maps `f` to the body `return 1` (not
`return 2`) — the earlier definition wins, refuting "later definition
wins". -/
theorem duplicate_definitions_counterexample :
    (parseProgram 30 (PState.init c1toks)).map (fun s =>
      ((s.userInfixDefs.lookup "<>").map (fun d => (d.lhsName, d.rhsName)),
       s.binOpPrecedence.lookup "<>",
       (s.functionDefs.lookup "f").map (fun fd => fd.statement),
       s.warnings)) =
    .ok (some ("a", "b"), some 5,
         some (some (.returnStmt (some (.intE 1)))),
         ["function f overrides another one",
          "infix operator <> overrides another"]) := rfl

set_option maxHeartbeats 1000000 in
/-- C3 (counterexample): after declaring `infix 5 a <> b = a - b;`,
running `10 <> 3 <> 1;` does not succeed with 6: evaluation of the
user-infix application node falls into the `default: RuntimeError
("unknown expression kind")` branch of `evaluateExpression` (the
interpreter has no case, and no table, for `InfixOpExprAST`), so the
run aborts. -/
theorem user_infix_eval_counterexample :
    (parseProgram 25 (PState.init c3toks)).map (fun s =>
      interpret (InterpCtx.ofParse s) 10 [] s.topLevelStmts) =
    .ok (.error .unknownExpressionKind) := rfl

set_option maxHeartbeats 1000000 in
/-- C3 (amended): the parsing half of the claim holds — the program
registers `<>` at precedence 5 and parses `10 <> 3 <> 1` into the
left-associated application `(10 <> 3) <> 1` — but evaluating any
user-defined infix-operator application is the fatal "unknown
expression kind" runtime error, for any operands and fuel, so the
program aborts instead of yielding 6. -/
theorem user_infix_parse_left_assoc_eval_fatal :
    ((parseProgram 25 (PState.init c3toks)).map (fun s =>
        (s.topLevelStmts, s.binOpPrecedence.lookup "<>")) =
      .ok ([some (.exprStmt (.infixOpExpr "<>"
              (.infixOpExpr "<>" (.intE 10) (.intE 3)) (.intE 1)))],
           some 5)) ∧
    (∀ (ctx : InterpCtx) (fuel : Nat) (env : EnvChain) (sym : String)
        (l r : Expr),
      evaluateExpression ctx (fuel + 1) env (.infixOpExpr sym l r) =
        .error .unknownExpressionKind) ∧
    ((parseProgram 25 (PState.init c3toks)).map (fun s =>
        interpret (InterpCtx.ofParse s) 10 [] s.topLevelStmts) =
      .ok (.error .unknownExpressionKind)) :=
  ⟨rfl, fun _ _ _ _ _ _ => rfl, rfl⟩

/-- C1 (amended): when a function name or an infix-operator symbol is
defined a second time, the parser issues the corresponding warning and
no error, but the EARLIER definition is retained: both `std::map`
emplaces fail on a present key, leaving the old definition (and, for
operators, the old precedence) in place.  Stated for any successful run
of `parseInfixOpDefinition` on a definition of an already-registered
symbol (explicit-precedence, `=`-body form) and for any successful run
of `parseFunctionDefinitionNamed` on an already-defined name. -/
theorem duplicate_definitions_earlier_wins :
    (∀ (fuel : Nat) (p0 : Int) (lhsN sym rhsN : String) (rest : List Token)
        (s s' : PState) (d : InfixOpDefinitionAST) (q : Int),
      s.toks = .kwInfix :: .integer p0 :: .identifier lhsN :: .infixOp sym ::
        .identifier rhsN :: .equal :: rest →
      parseInfixOpDefinition (fuel + 1) s = .ok s' →
      s.userInfixDefs.lookup sym = some d →
      s.binOpPrecedence.lookup sym = some q →
      s'.userInfixDefs.lookup sym = some d ∧
      s'.binOpPrecedence.lookup sym = some q ∧
      ("infix operator " ++ sym ++ " overrides another") ∈ s'.warnings) ∧
    (∀ (fuel : Nat) (retTy : BasicType) (name : String) (s s' : PState)
        (fd : FunctionDefinitionAST),
      parseFunctionDefinitionNamed (fuel + 1) retTy name s = .ok s' →
      s.functionDefs.lookup name = some fd →
      s'.functionDefs.lookup name = some fd ∧
      ("function " ++ name ++ " overrides another one") ∈ s'.warnings) := by
  constructor
  · intro fuel p0 lhsN sym rhsN rest s s' d q htoks h hd hq
    rw [parseInfixOpDefinition] at h
    simp only [htoks, PState.lex, PState.curTok, List.tail_cons,
      List.headD_cons] at h
    split at h
    · exact Except.noConfusion h
    · rename_i stmt pr heqB
      simp only [if_true] at heqB
      have htab : tables pr = tables s :=
        (parseExprStatement_tables heqB).trans (by rfl)
      have hbp : pr.binOpPrecedence = s.binOpPrecedence :=
        congrArg (fun t => t.1) htab
      have hinf : pr.userInfixDefs = s.userInfixDefs :=
        congrArg (fun t => t.2.1) htab
      have he1 : emplace sym (toInt8 p0) pr.binOpPrecedence =
          (pr.binOpPrecedence, false) :=
        emplace_present _ _ _ (by simp [hbp, hq])
      rw [he1] at h
      simp only [PState.warn] at h
      simp at h
      subst h
      have he2 : emplace sym ⟨sym, lhsN, rhsN, stmt⟩ s.userInfixDefs =
          (s.userInfixDefs, false) :=
        emplace_present _ _ _ (by simp [hd])
      refine ⟨?_, ?_, ?_⟩
      · simp [hinf, he2, hd]
      · simp [hbp, hq]
      · simp
  · intro fuel retTy name s s' fd h hd
    rw [parseFunctionDefinitionNamed] at h
    simp only [bind, Except.bind] at h
    split at h
    · split at h
      · -- a parameter list is parsed
        have htabP : tables (parseParameterList (fuel + 1) s.lex).2 = tables s :=
          (parseParameterList_tables (fuel + 1) s.lex).trans (by rfl)
        split at h
        · split at h
          · exact Except.noConfusion h
          · rename_i v heqB
            have htabB : tables v.2 = tables s :=
              ((parseStatement_tables heqB).trans (by rfl)).trans htabP
            have hfd : v.2.functionDefs = s.functionDefs :=
              congrArg (fun t => t.2.2) htabB
            have he : emplace name
                ⟨name, retTy, (parseParameterList (fuel + 1) s.lex).1, v.1⟩
                v.2.functionDefs = (v.2.functionDefs, false) :=
              emplace_present _ _ _ (by simp [hfd, hd])
            rw [he] at h
            simp at h
            subst h
            exact ⟨by simp [PState.warn, hfd, hd], by simp [PState.warn]⟩
        · exact Except.noConfusion h
      · -- `()`: empty parameter list
        split at h
        · split at h
          · exact Except.noConfusion h
          · rename_i v heqB
            have htabB : tables v.2 = tables s :=
              (parseStatement_tables heqB).trans (by rfl)
            have hfd : v.2.functionDefs = s.functionDefs :=
              congrArg (fun t => t.2.2) htabB
            have he : emplace name ⟨name, retTy, [], v.1⟩ v.2.functionDefs =
                (v.2.functionDefs, false) :=
              emplace_present _ _ _ (by simp [hfd, hd])
            rw [he] at h
            simp at h
            subst h
            exact ⟨by simp [PState.warn, hfd, hd], by simp [PState.warn]⟩
        · exact Except.noConfusion h
    · exact Except.noConfusion h

/-- C1 (witness for the amended theorem): a second definition of the
already-defined function `f` parses without error, warns, and leaves
the table entry for `f` at the first definition (`return 1`), not the
second (`return 2`). -/
theorem duplicate_definitions_earlier_wins_witness :
    parseFunctionDefinitionNamed 20 .intType "f" sDup = .ok sDup' ∧
    sDup.functionDefs.lookup "f" = some fdFirst ∧
    (sDup'.functionDefs.lookup "f" = some fdFirst ∧
      ("function " ++ "f" ++ " overrides another one") ∈ sDup'.warnings) :=
  ⟨rfl, rfl,
    duplicate_definitions_earlier_wins.2 19 .intType "f" sDup sDup' fdFirst rfl rfl⟩

theorem assignOk_binaryOp_ne {k : OperatorKind} (hk : k ≠ .assign)
    (l r : Expr) : assignOk (.binaryOp k l r) = (assignOk l && assignOk r) := by
  cases k <;> first | exact absurd rfl hk | simp [assignOk]

theorem create_assignOk {tk : Token} {l r e : Expr}
    (h : BinaryOperatorAST.create tk l r = .ok e)
    (hl : assignOk l = true) (hr : assignOk r = true) : assignOk e = true := by
  rw [BinaryOperatorAST.create] at h
  split at h
  · exact Except.noConfusion h
  · split at h
    · split at h
      · rename_i hid
        cases h; simp [assignOk, hid, hr]
      · exact Except.noConfusion h
    · rename_i k hmap hkne
      cases h; rw [assignOk_binaryOp_ne hkne, hl, hr]; rfl


theorem assignOkList_append (a b : List Expr) :
    assignOkList (a ++ b) = (assignOkList a && assignOkList b) := by
  induction a with
  | nil => simp [assignOkList]
  | cons e rest ih => simp [assignOkList, ih, Bool.and_assoc]

theorem parseConstantExpression_assignOk {s : PState} {e : Expr} {s' : PState}
    (h : parseConstantExpression s = .ok (e, s')) : assignOk e = true := by
  rw [parseConstantExpression] at h
  split at h <;> first | exact Except.noConfusion h | (cases h; rfl)

theorem parseExpr_assignOk (fuel : Nat)
  (ihPrim : ∀ s e s', parsePrimaryExpression fuel s = .ok (e, s') → assignOk e = true)
  (ihRHS : ∀ p res s e s', assignOk res = true →
    parseBinOpRHS fuel p res s = .ok (e, s') → assignOk e = true) :
  ∀ s e s', parseExpression (fuel+1) s = .ok (e, s') → assignOk e = true := by
  intro s e s' h
  rw [parseExpression] at h
  simp only [bind, Except.bind] at h
  split at h
  · exact Except.noConfusion h
  · rename_i pr heq
    obtain ⟨lhs, s1⟩ := pr
    exact ihRHS _ _ _ _ _ (ihPrim _ _ _ heq) h

theorem parsePrim_assignOk (fuel : Nat)
  (ihPrim : ∀ s e s', parsePrimaryExpression fuel s = .ok (e, s') → assignOk e = true)
  (ihParen : ∀ s e s', parseParenExpression fuel s = .ok (e, s') → assignOk e = true)
  (ihIdent : ∀ s e s', parseIdentifierExpression fuel s = .ok (e, s') → assignOk e = true)
  (ihIdx : ∀ res s e s', assignOk res = true →
    parseIndexSuffixes fuel res s = .ok (e, s') → assignOk e = true) :
  ∀ s e s', parsePrimaryExpression (fuel+1) s = .ok (e, s') → assignOk e = true := by
  intro s e s' h
  rw [parsePrimaryExpression] at h
  simp only [bind, Except.bind] at h
  split at h
  all_goals try exact Except.noConfusion h
  all_goals try exact ihParen _ _ _ h
  all_goals try exact parseConstantExpression_assignOk h
  all_goals
    split at h <;>
      first
        | exact Except.noConfusion h
        | (rename_i pr heq
           obtain ⟨x1, sx⟩ := pr
           first
             | exact ihIdx _ _ _ _ (ihIdent _ _ _ heq) h
             | (cases h
                simp [UnaryOperatorAST.tryFoldUnaryOp, assignOk, ihPrim _ _ _ heq]))

theorem parseIdxSuf_assignOk (fuel : Nat)
  (ihExpr : ∀ s e s', parseExpression fuel s = .ok (e, s') → assignOk e = true)
  (ihIdx : ∀ res s e s', assignOk res = true →
    parseIndexSuffixes fuel res s = .ok (e, s') → assignOk e = true) :
  ∀ res s e s', assignOk res = true →
    parseIndexSuffixes (fuel+1) res s = .ok (e, s') → assignOk e = true := by
  intro res s e s' hres h
  rw [parseIndexSuffixes] at h
  simp only [bind, Except.bind] at h
  split at h
  · split at h
    · exact Except.noConfusion h
    · rename_i pr heq
      obtain ⟨idx, s1⟩ := pr
      split at h
      · refine ihIdx _ _ _ _ ?_ h
        rw [assignOk_binaryOp_ne (by decide), hres, ihExpr _ _ _ heq]; rfl
      · exact Except.noConfusion h
  · cases h; exact hres

theorem parseParen_assignOk (fuel : Nat)
  (ihExpr : ∀ s e s', parseExpression fuel s = .ok (e, s') → assignOk e = true) :
  ∀ s e s', parseParenExpression (fuel+1) s = .ok (e, s') → assignOk e = true := by
  intro s e s' h
  rw [parseParenExpression] at h
  simp only [bind, Except.bind] at h
  split at h
  · exact Except.noConfusion h
  · rename_i pr heq
    obtain ⟨e1, s1⟩ := pr
    split at h
    · cases h; exact ihExpr _ _ _ heq
    · exact Except.noConfusion h

theorem parseIdentE_assignOk (fuel : Nat)
  (ihOptArg : ∀ s es s', parseOptionalArgList fuel s = .ok (es, s') →
    assignOkList es = true) :
  ∀ s e s', parseIdentifierExpression (fuel+1) s = .ok (e, s') →
    assignOk e = true := by
  intro s e s' h
  rw [parseIdentifierExpression] at h
  simp only [bind, Except.bind] at h
  split at h
  · split at h <;> split at h <;>
      first
        | (cases h; rfl)
        | (split at h <;>
            first
              | exact Except.noConfusion h
              | (rename_i pr heq
                 obtain ⟨args1, s1⟩ := pr
                 split at h <;>
                   first
                     | exact Except.noConfusion h
                     | (cases h
                        simp [assignOk, ihOptArg _ _ _ heq])))
  · exact Except.noConfusion h

theorem parseOptArg_assignOk (fuel : Nat)
  (ihArg : ∀ acc s es s', assignOkList acc = true →
    parseArgumentList fuel acc s = .ok (es, s') → assignOkList es = true) :
  ∀ s es s', parseOptionalArgList (fuel+1) s = .ok (es, s') →
    assignOkList es = true := by
  intro s es s' h
  rw [parseOptionalArgList] at h
  split at h
  · cases h; rfl
  · exact ihArg _ _ _ _ (by rfl) h

theorem parseArgList_assignOk (fuel : Nat)
  (ihExpr : ∀ s e s', parseExpression fuel s = .ok (e, s') → assignOk e = true)
  (ihArg : ∀ acc s es s', assignOkList acc = true →
    parseArgumentList fuel acc s = .ok (es, s') → assignOkList es = true) :
  ∀ acc s es s', assignOkList acc = true →
    parseArgumentList (fuel+1) acc s = .ok (es, s') → assignOkList es = true := by
  intro acc s es s' hacc h
  rw [parseArgumentList] at h
  simp only [bind, Except.bind] at h
  split at h
  · exact Except.noConfusion h
  · rename_i pr heq
    obtain ⟨e1, s1⟩ := pr
    have hall : assignOkList (acc ++ [e1]) = true := by
      rw [assignOkList_append, hacc]
      simp [assignOkList, ihExpr _ _ _ heq]
    split at h
    · exact ihArg _ _ _ _ hall h
    · cases h; exact hall

theorem parseRHS_assignOk (fuel : Nat)
  (ihExpr : ∀ s e s', parseExpression fuel s = .ok (e, s') → assignOk e = true)
  (ihLoop : ∀ p res s e s', assignOk res = true →
    parseBinOpRHSLoop fuel p res s = .ok (e, s') → assignOk e = true) :
  ∀ p res s e s', assignOk res = true →
    parseBinOpRHS (fuel+1) p res s = .ok (e, s') → assignOk e = true := by
  intro p res s e s' hres h
  rw [parseBinOpRHS] at h
  simp only [bind, Except.bind] at h
  split at h
  · split at h
    · exact Except.noConfusion h
    · rename_i pr heq
      obtain ⟨rhs1, s1⟩ := pr
      split at h
      · rename_i e2 hcr
        cases h
        exact create_assignOk hcr hres (ihExpr _ _ _ heq)
      · exact Except.noConfusion h
  · exact ihLoop _ _ _ _ _ hres h

theorem parseLoop_assignOk (fuel : Nat)
  (ihPrim : ∀ s e s', parsePrimaryExpression fuel s = .ok (e, s') → assignOk e = true)
  (ihRHS : ∀ p res s e s', assignOk res = true →
    parseBinOpRHS fuel p res s = .ok (e, s') → assignOk e = true)
  (ihLoop : ∀ p res s e s', assignOk res = true →
    parseBinOpRHSLoop fuel p res s = .ok (e, s') → assignOk e = true) :
  ∀ p res s e s', assignOk res = true →
    parseBinOpRHSLoop (fuel+1) p res s = .ok (e, s') → assignOk e = true := by
  intro p res s e s' hres h
  rw [parseBinOpRHSLoop] at h
  simp only [bind, Except.bind] at h
  split at h
  · cases h; exact hres
  · split at h
    · exact Except.noConfusion h
    · rename_i pr heq1
      obtain ⟨rhs1, s1⟩ := pr
      have hr1 : assignOk rhs1 = true := ihPrim _ _ _ heq1
      split at h
      · split at h
        · exact Except.noConfusion h
        · rename_i pr2 heq2
          obtain ⟨rhs2, s2⟩ := pr2
          have hr2 : assignOk rhs2 = true := ihRHS _ _ _ _ _ hr1 heq2
          split at h
          · refine ihLoop _ _ _ _ _ ?_ h
            simp [assignOk, hres, hr2]
          · split at h
            · rename_i e3 hcr
              refine ihLoop _ _ _ _ _ ?_ h
              exact create_assignOk hcr hres hr2
            · exact Except.noConfusion h
      · split at h
        · refine ihLoop _ _ _ _ _ ?_ h
          simp [assignOk, hres, hr1]
        · split at h
          · rename_i e3 hcr
            refine ihLoop _ _ _ _ _ ?_ h
            exact create_assignOk hcr hres hr1
          · exact Except.noConfusion h


theorem parser_assignOk_inv : ∀ fuel : Nat,
    (∀ s e s', parseExpression fuel s = .ok (e, s') → assignOk e = true) ∧
    (∀ s e s', parsePrimaryExpression fuel s = .ok (e, s') → assignOk e = true) ∧
    (∀ res s e s', assignOk res = true →
      parseIndexSuffixes fuel res s = .ok (e, s') → assignOk e = true) ∧
    (∀ s e s', parseParenExpression fuel s = .ok (e, s') → assignOk e = true) ∧
    (∀ s e s', parseIdentifierExpression fuel s = .ok (e, s') → assignOk e = true) ∧
    (∀ s es s', parseOptionalArgList fuel s = .ok (es, s') → assignOkList es = true) ∧
    (∀ acc s es s', assignOkList acc = true →
      parseArgumentList fuel acc s = .ok (es, s') → assignOkList es = true) ∧
    (∀ p res s e s', assignOk res = true →
      parseBinOpRHS fuel p res s = .ok (e, s') → assignOk e = true) ∧
    (∀ p res s e s', assignOk res = true →
      parseBinOpRHSLoop fuel p res s = .ok (e, s') → assignOk e = true) := by
  intro fuel
  induction fuel with
  | zero =>
    refine ⟨?_, ?_, ?_, ?_, ?_, ?_, ?_, ?_, ?_⟩ <;>
      (intros; rename_i h;
       simp [parseExpression, parsePrimaryExpression, parseIndexSuffixes,
         parseParenExpression, parseIdentifierExpression, parseOptionalArgList,
         parseArgumentList, parseBinOpRHS, parseBinOpRHSLoop] at h)
  | succ fuel ih =>
    obtain ⟨ihExpr, ihPrim, ihIdx, ihParen, ihIdent, ihOptArg, ihArg, ihRHS,
      ihLoop⟩ := ih
    exact ⟨parseExpr_assignOk fuel ihPrim ihRHS,
      parsePrim_assignOk fuel ihPrim ihParen ihIdent ihIdx,
      parseIdxSuf_assignOk fuel ihExpr ihIdx,
      parseParen_assignOk fuel ihExpr,
      parseIdentE_assignOk fuel ihOptArg,
      parseOptArg_assignOk fuel ihArg,
      parseArgList_assignOk fuel ihExpr ihArg,
      parseRHS_assignOk fuel ihExpr ihLoop,
      parseLoop_assignOk fuel ihPrim ihRHS ihLoop⟩

/-- C8: every expression accepted by `parseExpression` satisfies
`assignOk`: each of its assignment nodes has a plain identifier as its
left side.  An `=` whose accumulated left side is any other expression
shape makes `BinaryOperatorAST::create`/`tryFoldBinOp` (the only
constructors of assignment nodes, reached from the pre-check and from
the precedence loop of `parseBinOpRHS`) reject the expression at parse
time, so no other shape survives parsing. -/
theorem parser_assignment_lhs_identifier :
    ∀ (fuel : Nat) (s : PState) (e : Expr) (s' : PState),
      parseExpression fuel s = .ok (e, s') → assignOk e = true :=
  fun fuel => (parser_assignOk_inv fuel).1

/-- C8 (witness): `a = 3` parses to an assignment node whose left side
is the identifier `a`, and the tree satisfies `assignOk`. -/
theorem parser_assignment_lhs_identifier_witness :
    parseExpression 12 (PState.init
        [.identifier "a", .equal, .integer 3]) =
      .ok (.binaryOp .assign (.identifier "a") (.intE 3),
           { toks := [] }) ∧
    assignOk (.binaryOp .assign (.identifier "a") (.intE 3)) = true :=
  ⟨rfl,
    parser_assignment_lhs_identifier 12
      (PState.init [.identifier "a", .equal, .integer 3])
      (.binaryOp .assign (.identifier "a") (.intE 3)) { toks := [] } rfl⟩

set_option maxHeartbeats 4000000 in
/-- C7: `parseExpression` reflects standard precedence and
left-associativity for the builtin operator table: `1 + 2 * 3` parses
to `Add(1, Mul(2,3))` and `2 * 3 + 1` parses to `Add(Mul(2,3), 1)`; in
general, for every pair of builtin binary-operator tokens in the
discriminating three-operand configuration `a t1 b t2 c`, the parse
tree groups to the right exactly when `t1` binds strictly less tightly
than `t2`, and to the left otherwise (so equal precedence associates
left-to-right). -/
theorem parseExpression_precedence_left_assoc :
    (parseExpression 10 (PState.init
        [.integer 1, .plus, .integer 2, .star, .integer 3]) =
      .ok (.binaryOp .add (.intE 1)
            (.binaryOp .multiply (.intE 2) (.intE 3)), { toks := [] })) ∧
    (parseExpression 10 (PState.init
        [.integer 2, .star, .integer 3, .plus, .integer 1]) =
      .ok (.binaryOp .add (.binaryOp .multiply (.intE 2) (.intE 3))
            (.intE 1), { toks := [] })) ∧
    (∀ (t1 t2 : Token) (k1 k2 : OperatorKind) (a b c : Int),
      isBuiltinBinOpTok t1 = true → isBuiltinBinOpTok t2 = true →
      tokenToBinOp t1 = some k1 → tokenToBinOp t2 = some k2 →
      parseExpression 10 (PState.init
          [.integer a, t1, .integer b, t2, .integer c]) =
        .ok ((if getBinOpPrecedence (PState.init [t1]) <
                 getBinOpPrecedence (PState.init [t2])
              then .binaryOp k1 (.intE a) (.binaryOp k2 (.intE b) (.intE c))
              else .binaryOp k2 (.binaryOp k1 (.intE a) (.intE b)) (.intE c)),
             { toks := [] })) := by
  refine ⟨rfl, rfl, ?_⟩
  intro t1 t2 k1 k2 a b c h1 h2 hk1 hk2
  cases t1 <;> simp [isBuiltinBinOpTok] at h1 <;>
    cases t2 <;> simp [isBuiltinBinOpTok] at h2 <;>
    simp only [tokenToBinOp, Option.some.injEq] at hk1 hk2 <;>
    subst hk1 <;> subst hk2 <;> rfl


/-- C7 (witness): the general precedence statement applied to `+` and
`*` at concrete operands `7 + 5 * 2`: `*` binds tighter, so the tree
groups to the right. -/
theorem parseExpression_precedence_left_assoc_witness :
    isBuiltinBinOpTok .plus = true ∧ isBuiltinBinOpTok .star = true ∧
    tokenToBinOp .plus = some .add ∧ tokenToBinOp .star = some .multiply ∧
    parseExpression 10 (PState.init
        [.integer 7, .plus, .integer 5, .star, .integer 2]) =
      .ok ((if getBinOpPrecedence (PState.init [Token.plus]) <
               getBinOpPrecedence (PState.init [Token.star])
            then Expr.binaryOp .add (.intE 7)
                   (.binaryOp .multiply (.intE 5) (.intE 2))
            else Expr.binaryOp .multiply
                   (.binaryOp .add (.intE 7) (.intE 5)) (.intE 2)),
           { toks := [] }) :=
  ⟨rfl, rfl, rfl, rfl,
    parseExpression_precedence_left_assoc.2.2 .plus .star .add .multiply
      7 5 2 rfl rfl rfl rfl⟩

end CMM
